import Mathlib

/-!
Verification of the `b` binary container decoder (`crates/parser`).

This file shallowly embeds the decoder in `src/crates/parser/src/utilities/decode.rs`
(and the helpers it calls) as executable Lean functions, and proves properties of the
embedding.  Machine integers are modelled as `Nat` with explicit bounds where Rust
overflow behaviour matters; byte buffers are `List Nat`; fallible Rust functions
(`Result<_, String>`) return `Except RErr _`, where a Rust panic (an out-of-bounds
slice index) is modelled as the distinguished error `RErr.panicked`.

Floating-point values never need to be interpreted numerically for the properties at
hand, so an `f64`/`f32` is represented by its little-endian bit pattern as a `Nat`;
Rust renders such values to decimal strings, which the model keeps unrendered inside
`MetaValue`.  The external collaborators (zlib, zstd, and the read-only CV display-name
table) are parameters of the embedding: `decode` takes the CV lookup and the two
decompressors as explicit function arguments.
-/

namespace B

set_option maxRecDepth 10000

/-- Outcome tag of a fallible Rust function: an error message, or a panic
(an unchecked slice index going out of bounds aborts the Rust process;
the model records it as `panicked`). -/
inductive RErr where
  | msg (s : String)
  | panicked
deriving DecidableEq, Repr

abbrev Res (α : Type) := Except RErr α

def U64MAX : Nat := 18446744073709551615

/-- Rust `u64::saturating_add`. -/
def satAdd (a b : Nat) : Nat := min (a + b) U64MAX

/-- Value of a byte list read as a little-endian integer. -/
def leVal (l : List Nat) : Nat := l.foldr (fun b acc => b + 256 * acc) 0

/-- Little-endian encoding of a `u32` (used to build concrete test inputs). -/
def le4 (n : Nat) : List Nat :=
  [n % 256, n / 256 % 256, n / 256 ^ 2 % 256, n / 256 ^ 3 % 256]

/-- Little-endian encoding of a `u64` (used to build concrete test inputs). -/
def le8 (n : Nat) : List Nat :=
  [n % 256, n / 256 % 256, n / 256 ^ 2 % 256, n / 256 ^ 3 % 256,
   n / 256 ^ 4 % 256, n / 256 ^ 5 % 256, n / 256 ^ 6 % 256, n / 256 ^ 7 % 256]

/-- Rust `read_slice` from decode.rs: `b.get(o..o+l)` or an EOF error. -/
def read_slice (b : List Nat) (o l : Nat) : Res (List Nat) :=
  if o + l ≤ b.length then .ok ((b.drop o).take l) else .error (.msg "EOF")

/-- Rust `read_u32_vec` from decode.rs: `c` little-endian `u32`s from the front of `b`. -/
def read_u32_vec (b : List Nat) (c : Nat) : Res (List Nat) :=
  if b.length < c * 4 then .error (.msg "EOF")
  else .ok ((List.range c).map fun i => leVal ((b.drop (4 * i)).take 4))

/-- Rust `read_f64_vec` from decode.rs; each `f64` is kept as its 8-byte LE bit pattern. -/
def read_f64_vec (b : List Nat) (c : Nat) : Res (List Nat) :=
  if b.length < c * 8 then .error (.msg "EOF")
  else .ok ((List.range c).map fun i => leVal ((b.drop (8 * i)).take 8))

/-- Model of `bytes.get(offset..)` as used for `strings_data` in `decode_meta_block`. -/
def read_tail (b : List Nat) (o : Nat) : Res (List Nat) :=
  if o ≤ b.length then .ok (b.drop o) else .error (.msg "EOF")

/-- Rust `read_u8_at`, total form: header reads are guarded by a length check in the
caller, so the default is never taken on reachable paths. -/
def u8At (b : List Nat) (o : Nat) : Nat := b.getD o 0

/-- Rust `read_u32_at`, total form (see `u8At`). -/
def u32At (b : List Nat) (o : Nat) : Nat := leVal ((b.drop o).take 4)

/-- Rust `read_u64_at`, total form (see `u8At`). -/
def u64At (b : List Nat) (o : Nat) : Nat := leVal ((b.drop o).take 8)

/-- Error-propagating map over a list (the shape of the decoder's item loops). -/
def emap (f : α → Res β) : List α → Res (List β)
  | [] => .ok []
  | x :: xs => do
    let y ← f x
    let ys ← emap f xs
    .ok (y :: ys)

/-- A decoded metadatum value.  Rust stores `Option<String>`; the model keeps the
unrendered payload: a numeric value is an `f64` bit pattern, a text value is its
UTF-8 byte string (Rust replaces invalid UTF-8 by the empty string when rendering,
which does not affect the properties proved here). -/
inductive MetaValue where
  | num (bits : Nat)
  | text (bytes : List Nat)
deriving DecidableEq, Repr

/-- The `CvParam` record as populated by decode.rs. -/
structure CvParam where
  cvRef : Option String
  accession : Option String
  name : String
  value : Option MetaValue
  unitCvRef : Option String
  unitAccession : Option String
  unitName : Option String
deriving DecidableEq, Repr

/-- Rust `cv_ref_from_code` from decode.rs. -/
def cv_ref_from_code (c : Nat) : Option String :=
  if c = 0 then some "MS"
  else if c = 1 then some "UO"
  else if c = 2 then some "NCIT"
  else if c = 3 then some "PEFF"
  else none

/-- Decimal string of `n` left-padded with zeros to 7 digits (Rust format `{:07}`). -/
def pad7 (n : Nat) : String :=
  let s := toString n
  String.mk (List.replicate (7 - s.length) '0') ++ s

/-- Decimal string of `n` left-padded with zeros to 5 digits (Rust format `{:05}`). -/
def pad5 (n : Nat) : String :=
  let s := toString n
  String.mk (List.replicate (5 - s.length) '0') ++ s

/-- Rust `make_accession` from decode.rs. -/
def make_accession (r : Option String) (a : Nat) : Option String :=
  if a = 0 then none
  else
    match r with
    | some p =>
      if p = "MS" ∨ p = "UO" ∨ p = "PEFF" then some (p ++ ":" ++ pad7 a)
      else if p = "NCIT" then some ("NCIT:C" ++ pad5 a)
      else some (p ++ ":" ++ toString a)
    | none => some (toString a)

/-- Rust `cv_name_from_code` from decode.rs; `cvT` is the external read-only CV table
(`cv_table::get` composed with `as_str`). -/
def cv_name_from_code (cvT : String → Option String) (r : Option String) (a : Nat) :
    Option String :=
  if a = 0 then none
  else
    match r with
    | none => none
    | some p => cvT (p ++ ":" ++ pad7 a)

/-- Model of the `u32::from_str` parse used by `parse_acc_tail`: all characters must be
decimal digits and the value must fit in a `u32`. -/
def parseU32Str (s : String) : Option Nat :=
  let cs := s.toList
  if cs ≠ [] ∧ cs.all Char.isDigit then
    let v := cs.foldl (fun a c => a * 10 + (c.toNat - 48)) 0
    if v < 4294967296 then some v else none
  else none

/-- Rust `parse_acc_tail` from decode.rs: the decimal value of the text after the last
colon, or 0 when absent/unparsable. -/
def parse_acc_tail (acc : Option String) : Nat :=
  match acc with
  | none => 0
  | some s => ((parseU32Str ((s.splitOn ":").getLastD s)).getD 0)

/-- The intermediate tables of one metadata block (`decode_meta_block`, reads part). -/
structure MetaTables where
  itemIndices : List Nat
  refCodes : List Nat
  accessions : List Nat
  unitRefs : List Nat
  unitAccessions : List Nat
  valueKinds : List Nat
  valueIndices : List Nat
  numericValues : List Nat
  stringOffsets : List Nat
  stringLengths : List Nat
  stringsData : List Nat
deriving DecidableEq, Repr

/-- The sequential region reads of `decode_meta_block` (decode.rs lines 868-922). -/
def meta_tables (bytes : List Nat) (itemCount metaCount numCount strCount : Nat) :
    Res MetaTables := do
  let o0 := 0
  let itemIndices ← read_u32_vec (← read_slice bytes o0 ((itemCount + 1) * 4)) (itemCount + 1)
  let o1 := o0 + (itemCount + 1) * 4
  let refCodes ← read_slice bytes o1 metaCount
  let o2 := o1 + metaCount
  let accessions ← read_u32_vec (← read_slice bytes o2 (metaCount * 4)) metaCount
  let o3 := o2 + metaCount * 4
  let unitRefs ← read_slice bytes o3 metaCount
  let o4 := o3 + metaCount
  let unitAccessions ← read_u32_vec (← read_slice bytes o4 (metaCount * 4)) metaCount
  let o5 := o4 + metaCount * 4
  let valueKinds ← read_slice bytes o5 metaCount
  let o6 := o5 + metaCount
  let valueIndices ← read_u32_vec (← read_slice bytes o6 (metaCount * 4)) metaCount
  let o7 := o6 + metaCount * 4
  let numericValues ← read_f64_vec (← read_slice bytes o7 (numCount * 8)) numCount
  let o8 := o7 + numCount * 8
  let stringOffsets ← read_u32_vec (← read_slice bytes o8 (strCount * 4)) strCount
  let o9 := o8 + strCount * 4
  let stringLengths ← read_u32_vec (← read_slice bytes o9 (strCount * 4)) strCount
  let o10 := o9 + strCount * 4
  let stringsData ← read_tail bytes o10
  .ok { itemIndices, refCodes, accessions, unitRefs, unitAccessions,
        valueKinds, valueIndices, numericValues, stringOffsets, stringLengths, stringsData }

/-- The value computed for metadatum `m` (decode.rs lines 931-950): out-of-range
numeric/text indices yield `none`, a text window past `strings_data` yields the
empty string. -/
def meta_value (t : MetaTables) (m : Nat) : Option MetaValue :=
  let kind := t.valueKinds.getD m 0
  let idx := t.valueIndices.getD m 0
  if kind = 0 ∧ idx < t.numericValues.length then some (.num (t.numericValues.getD idx 0))
  else if kind = 1 ∧ idx < t.stringOffsets.length then
    let sOff := t.stringOffsets.getD idx 0
    let sLen := t.stringLengths.getD idx 0
    if sOff + sLen ≤ t.stringsData.length then
      some (.text ((t.stringsData.drop sOff).take sLen))
    else some (.text [])
  else none

/-- The `CvParam` built for metadatum `m` (decode.rs lines 952-963); only called
with `m` inside every table. -/
def meta_param (cvT : String → Option String) (t : MetaTables) (m : Nat) : CvParam :=
  let cvRef := cv_ref_from_code (t.refCodes.getD m 0)
  let unitRef := cv_ref_from_code (t.unitRefs.getD m 0)
  { cvRef := cvRef
    accession := make_accession cvRef (t.accessions.getD m 0)
    name := (cv_name_from_code cvT cvRef (t.accessions.getD m 0)).getD ""
    value := meta_value t m
    unitCvRef := unitRef
    unitAccession := make_accession unitRef (t.unitAccessions.getD m 0)
    unitName := cv_name_from_code cvT unitRef (t.unitAccessions.getD m 0) }

/-- The inner loop `for m in start..end` indexes six slices of length `meta_count`
at `m`; Rust panics at the first `m ≥ meta_count`.  An empty range never indexes. -/
def item_meta_range (start stop metaCount : Nat) : Res (List Nat) :=
  if stop ≤ start then .ok []
  else if stop ≤ metaCount then .ok (List.range' start (stop - start))
  else .error .panicked

/-- Rust `decode_meta_block` from decode.rs: region reads, then one list of `CvParam`s
per item, spanning `item_indices[i] .. item_indices[i+1]`. -/
def decode_meta_block (cvT : String → Option String) (bytes : List Nat)
    (itemCount metaCount numCount strCount : Nat) : Res (List (List CvParam)) := do
  let t ← meta_tables bytes itemCount metaCount numCount strCount
  emap (fun i => do
      let r ← item_meta_range (t.itemIndices.getD i 0) (t.itemIndices.getD (i + 1) 0) metaCount
      .ok (r.map (meta_param cvT t)))
    (List.range itemCount)

/-- One block-directory entry (decode.rs `BlockDirEntry`); `reserved` is skipped. -/
structure BlockDirEntry where
  compOff : Nat
  compSize : Nat
  uncompBytes : Nat
deriving DecidableEq, Repr

/-- The `Container` struct from decode.rs.  The Rust struct carries a per-block memo
(`cache: Vec<Option<Vec<u8>>>`) and a scratch buffer; the memo only ever stores
the value that `block_bytes` computes for that id, so the model reads blocks as a
pure function and omits the two buffers. -/
structure Container where
  compressedRegion : List Nat
  dir : List BlockDirEntry
  blockStartElems : List Nat
  codec : Nat
  compressionLevel : Nat
  elemSize : Nat
  arrayFilter : Nat
deriving DecidableEq, Repr

/-- Rust `Container::empty`. -/
def Container.empty : Container :=
  { compressedRegion := []
    dir := []
    blockStartElems := [0]
    codec := 0
    compressionLevel := 0
    elemSize := 1
    arrayFilter := 0 }

/-- The directory parse loop in `Container::new`. -/
def parse_block_dir (containerBytes : List Nat) (blockCount : Nat) : List BlockDirEntry :=
  (List.range blockCount).map fun i =>
    { compOff := leVal ((containerBytes.drop (i * 32)).take 8)
      compSize := leVal ((containerBytes.drop (i * 32 + 8)).take 8)
      uncompBytes := leVal ((containerBytes.drop (i * 32 + 16)).take 8) }

/-- The `block_start_elems` accumulation in `Container::new`: 0, then a running
`u64` saturating sum of `uncomp_bytes / elem_size`. -/
def block_starts (elemSize : Nat) (dir : List BlockDirEntry) : List Nat :=
  dir.scanl (fun acc e => satAdd acc (e.uncompBytes / elemSize)) 0

/-- Rust `Container::new` from decode.rs.  `block_count * 32` cannot overflow Rust's
64-bit `usize` (`block_count < 2^32`), so that checked multiplication is modelled
as plain multiplication. -/
def Container.new (file : List Nat) (off size blockCount codec compressionLevel
    elemSize arrayFilter : Nat) : Res Container :=
  if size = 0 ∨ blockCount = 0 then .ok Container.empty
  else if elemSize = 0 then .error (.msg "Invalid elem_size")
  else do
    let containerBytes ← read_slice file off size
    let dirBytes := blockCount * 32
    if containerBytes.length < dirBytes then
      .error (.msg "Container too small for block directory")
    else
      let dir := parse_block_dir containerBytes blockCount
      .ok { compressedRegion := containerBytes.drop dirBytes
            dir := dir
            blockStartElems := block_starts elemSize dir
            codec := codec
            compressionLevel := compressionLevel
            elemSize := elemSize
            arrayFilter := arrayFilter }

/-- Rust `unshuffle_into` from decode.rs, as a function from `src` to the filled `dst`
(the caller always supplies `dst` of the same length).  The Rust loops assign
`dst[i * elem_size + b] = src[b * n + i]` for every `b < elem_size`, `i < n`;
position `k` therefore receives `src[(k % elem_size) * n + k / elem_size]`. -/
def unshuffle_into (src : List Nat) (elemSize : Nat) : Res (List Nat) :=
  if elemSize ≤ 1 then .ok src
  else if src.length % elemSize ≠ 0 then .error (.msg "unshuffle: invalid byte length")
  else
    .ok ((List.range src.length).map fun k =>
      src.getD ((k % elemSize) * (src.length / elemSize) + k / elemSize) 0)

/-- Rust `Container::block_bytes` from decode.rs, with the two external decompressors
as parameters (`miniz_oxide` zlib and `zstd::bulk::decompress`; the latter's
output-capacity argument is folded into the abstraction).  The per-container
memoization is modelled away (see `Container`). -/
def Container.block_bytes (c : Container)
    (inflZ inflS : List Nat → Option (List Nat)) (blockId : Nat) : Res (List Nat) :=
  if c.dir.length ≤ blockId then .error (.msg "Invalid block id")
  else
    let e := c.dir.getD blockId { compOff := 0, compSize := 0, uncompBytes := 0 }
    if U64MAX < e.compOff + e.compSize then .error (.msg "Block range overflow")
    else if c.compressedRegion.length < e.compOff + e.compSize then .error (.msg "EOF")
    else
      let comp := (c.compressedRegion.drop e.compOff).take e.compSize
      let needsOwned :=
        c.compressionLevel ≠ 0 ∨ (c.arrayFilter = 1 ∧ 1 < c.elemSize)
      if ¬needsOwned then .ok comp
      else do
        let block ←
          if c.compressionLevel = 0 then
            if e.uncompBytes ≠ 0 ∧ comp.length ≠ e.uncompBytes then
              Except.error (.msg "Uncompressed block size mismatch")
            else Except.ok comp
          else do
            let inflated ←
              if c.codec = 0 then
                match inflZ comp with
                | some v => Except.ok v
                | none => Except.error (.msg "Zlib decompression failed")
              else if c.codec = 1 then
                match inflS comp with
                | some v => Except.ok v
                | none => Except.error (.msg "Zstd decompression failed")
              else Except.error (.msg "Unsupported container codec")
            if e.uncompBytes ≠ 0 ∧ inflated.length ≠ e.uncompBytes then
              Except.error (.msg "Inflated block size mismatch")
            else Except.ok inflated
        if c.arrayFilter = 1 ∧ 1 < c.elemSize ∧ block ≠ [] then
          unshuffle_into block c.elemSize
        else .ok block

/-- Rust `Container::slice_elems` from decode.rs.  The three `checked` operations run
on Rust's 64-bit `usize`, hence the explicit `U64MAX` guards. -/
def Container.slice_elems (c : Container)
    (inflZ inflS : List Nat → Option (List Nat))
    (blockId globalElemOff elemLen : Nat) : Res (List Nat) :=
  if c.blockStartElems.length ≤ blockId + 1 then .error (.msg "Invalid block id")
  else
    let blockStart := c.blockStartElems.getD blockId 0
    if globalElemOff < blockStart then .error (.msg "Element offset before block start")
    else
      let localElems := globalElemOff - blockStart
      if U64MAX < localElems * c.elemSize then .error (.msg "Byte offset overflow")
      else
        let byteOff := localElems * c.elemSize
        if U64MAX < elemLen * c.elemSize then .error (.msg "Byte length overflow")
        else
          let byteLen := elemLen * c.elemSize
          if U64MAX < byteOff + byteLen then .error (.msg "Slice range overflow")
          else do
            let block ← c.block_bytes inflZ inflS blockId
            if byteOff + byteLen ≤ block.length then
              .ok ((block.drop byteOff).take byteLen)
            else .error (.msg "EOF")

/-- The trailing-zero retry loop shared by `decompress_zlib_allow_pad0` and
`decompress_zstd_allow_pad0` (decode.rs) and by
`decompress_zstd_allow_aligned_padding` (common.rs): up to 7 times, drop one
trailing zero byte and retry the decompressor on the shortened prefix. -/
def trim_retry (infl : List Nat → Option (List Nat)) (input : List Nat) :
    Nat → Nat → Option (List Nat)
  | _, 0 => none
  | stop, fuel + 1 =>
    if stop = 0 then none
    else if input.getD (stop - 1) 0 ≠ 0 then none
    else
      match infl (input.take (stop - 1)) with
      | some v => some v
      | none => trim_retry infl input (stop - 1) fuel

/-- Rust `decompress_zlib_allow_pad0` from decode.rs. -/
def decompress_zlib_allow_pad0 (infl : List Nat → Option (List Nat))
    (input : List Nat) : Res (List Nat) :=
  match infl input with
  | some v => .ok v
  | none =>
    match trim_retry infl input input.length 7 with
    | some v => .ok v
    | none => .error (.msg "Zlib decompression failed")

/-- Rust `decompress_zstd_allow_pad0` from decode.rs. -/
def decompress_zstd_allow_pad0 (infl : List Nat → Option (List Nat))
    (input : List Nat) : Res (List Nat) :=
  match infl input with
  | some v => .ok v
  | none =>
    match trim_retry infl input input.length 7 with
    | some v => .ok v
    | none => .error (.msg "Zstd decompression failed")

/-- Rust `decompress_zstd_allow_aligned_padding` from common.rs: same retry loop; on
total failure Rust returns the first attempt's error message, which the `Option`
model collapses to `none`. -/
def decompress_zstd_allow_aligned_padding (infl : List Nat → Option (List Nat))
    (input : List Nat) : Option (List Nat) :=
  match infl input with
  | some v => some v
  | none => trim_retry infl input input.length 7

/-- Rust `decompress_meta_if_needed` from decode.rs. -/
def decompress_meta_if_needed (inflZ inflS : List Nat → Option (List Nat))
    (codec : Nat) (isCompressed : Bool) (bytes : List Nat) : Res (List Nat) :=
  if !isCompressed then .ok bytes
  else if codec = 0 then decompress_zlib_allow_pad0 inflZ bytes
  else if codec = 1 then decompress_zstd_allow_pad0 inflS bytes
  else .error (.msg "Unsupported meta codec")

/-! Document tree, restricted to the fields decode.rs populates (the remaining
fields of the Rust structs are filled by `..Default::default()` and never touched
by the decoder; the struct definition file itself is not under `src/`). -/

/-- The `BinaryDataArray` record, decode.rs view. -/
structure BinaryDataArray where
  arrayLength : Option Nat
  isF32 : Option Bool
  isF64 : Option Bool
  cvParams : List CvParam
  decodedBinaryF32 : List Nat
  decodedBinaryF64 : List Nat
deriving DecidableEq, Repr

structure BinaryDataArrayList where
  count : Option Nat
  binaryDataArrays : List BinaryDataArray
deriving DecidableEq, Repr

structure IsolationWindow where
  cvParams : List CvParam
deriving DecidableEq, Repr

structure SelectedIon where
  cvParams : List CvParam
deriving DecidableEq, Repr

structure SelectedIonList where
  count : Option Nat
  selectedIons : List SelectedIon
deriving DecidableEq, Repr

structure Activation where
  cvParams : List CvParam
deriving DecidableEq, Repr

structure Precursor where
  isolationWindow : Option IsolationWindow
  selectedIonList : Option SelectedIonList
  activation : Option Activation
deriving DecidableEq, Repr

structure PrecursorList where
  count : Option Nat
  precursors : List Precursor
deriving DecidableEq, Repr

structure Spectrum where
  id : String
  index : Option Nat
  defaultArrayLength : Option Nat
  cvParams : List CvParam
  precursorList : Option PrecursorList
  binaryDataArrayList : Option BinaryDataArrayList
deriving DecidableEq, Repr

structure Chromatogram where
  id : String
  index : Option Nat
  defaultArrayLength : Option Nat
  cvParams : List CvParam
  binaryDataArrayList : Option BinaryDataArrayList
deriving DecidableEq, Repr

structure SpectrumList where
  count : Option Nat
  spectra : List Spectrum
deriving DecidableEq, Repr

structure ChromatogramList where
  count : Option Nat
  chromatograms : List Chromatogram
deriving DecidableEq, Repr

structure Run where
  id : String
  spectrumList : Option SpectrumList
  chromatogramList : Option ChromatogramList
deriving DecidableEq, Repr

/-- The `Cv` record; `id` defaults to the empty string (`.text []`). -/
structure Cv where
  id : MetaValue
  fullName : Option MetaValue
  version : Option MetaValue
  uri : Option MetaValue
deriving DecidableEq, Repr

structure CvList where
  count : Option Nat
  cv : List Cv
deriving DecidableEq, Repr

structure FileContent where
  cvParams : List CvParam
deriving DecidableEq, Repr

structure FileDescription where
  fileContent : FileContent
deriving DecidableEq, Repr

structure ReferenceableParamGroup where
  cvParams : List CvParam
deriving DecidableEq, Repr

structure ReferenceableParamGroupList where
  count : Option Nat
  referenceableParamGroups : List ReferenceableParamGroup
deriving DecidableEq, Repr

structure Sample where
  cvParams : List CvParam
deriving DecidableEq, Repr

structure SampleList where
  count : Option Nat
  samples : List Sample
deriving DecidableEq, Repr

structure Instrument where
  cvParam : List CvParam
deriving DecidableEq, Repr

structure InstrumentList where
  count : Option Nat
  instrument : List Instrument
deriving DecidableEq, Repr

structure Software where
  cvParam : List CvParam
deriving DecidableEq, Repr

structure SoftwareList where
  count : Option Nat
  software : List Software
deriving DecidableEq, Repr

structure ProcessingMethod where
  cvParam : List CvParam
deriving DecidableEq, Repr

structure DataProcessing where
  processingMethod : List ProcessingMethod
deriving DecidableEq, Repr

structure DataProcessingList where
  count : Option Nat
  dataProcessing : List DataProcessing
deriving DecidableEq, Repr

structure ScanSettings where
  cvParams : List CvParam
deriving DecidableEq, Repr

structure ScanSettingsList where
  count : Option Nat
  scanSettings : List ScanSettings
deriving DecidableEq, Repr

structure MzML where
  cvList : Option CvList
  fileDescription : FileDescription
  referenceableParamGroupList : Option ReferenceableParamGroupList
  sampleList : Option SampleList
  instrumentList : Option InstrumentList
  softwareList : Option SoftwareList
  dataProcessingList : Option DataProcessingList
  scanSettingsList : Option ScanSettingsList
  run : Run
deriving DecidableEq, Repr

/-- Rust `fmt_elem_size` from decode.rs: 1 is `f32` (4 bytes), 2 is `f64` (8 bytes). -/
def fmt_elem_size (fmt : Nat) : Res Nat :=
  if fmt = 1 then .ok 4
  else if fmt = 2 then .ok 8
  else .error (.msg "Invalid float format")

/-- All header fields read by `decode` (decode.rs lines 431-492). -/
structure Hdr where
  offSpecIndex : Nat
  offChromIndex : Nat
  offSpecMeta : Nat
  offChromMeta : Nat
  offGlobalMeta : Nat
  sizeContainerSpectX : Nat
  offContainerSpectX : Nat
  sizeContainerSpectY : Nat
  offContainerSpectY : Nat
  sizeContainerChromX : Nat
  offContainerChromX : Nat
  sizeContainerChromY : Nat
  offContainerChromY : Nat
  spectrumCount : Nat
  chromCount : Nat
  specMetaCount : Nat
  specNumCount : Nat
  specStrCount : Nat
  chromMetaCount : Nat
  chromNumCount : Nat
  chromStrCount : Nat
  globalMetaCount : Nat
  globalNumCount : Nat
  globalStrCount : Nat
  blockCountSpectX : Nat
  blockCountSpectY : Nat
  blockCountChromX : Nat
  blockCountChromY : Nat
  codecFlags : Nat
  codec : Nat
  chromXFmt : Nat
  chromYFmt : Nat
  spectXFmt : Nat
  spectYFmt : Nat
  compressionLevel : Nat
  arrayFilter : Nat
  spectXElemSize : Nat
  spectYElemSize : Nat
  chromXElemSize : Nat
  chromYElemSize : Nat
deriving DecidableEq, Repr

/-- The header part of `decode` (decode.rs lines 431-492).  Every field read lies
inside the 192-byte prefix whose presence is checked first, so the reads are
modelled with the total `u8At`/`u32At`/`u64At`; the magic, endianness and the four
element-format checks are the fallible steps.  The format bytes are read as in the
source: offset 173 and 174 are the chromatogram X/Y formats, 175 and 176 the
spectrum X/Y formats. -/
def parse_header_fields (bytes : List Nat) : Res Hdr :=
  if bytes.length < 192 then .error (.msg "Buffer too small for header")
  else if bytes.take 4 ≠ [66, 48, 48, 48] then .error (.msg "Invalid binary magic number")
  else if u8At bytes 4 ≠ 0 then .error (.msg "Unsupported endianness flag")
  else do
    let spectXElemSize ← fmt_elem_size (u8At bytes 175)
    let spectYElemSize ← fmt_elem_size (u8At bytes 176)
    let chromXElemSize ← fmt_elem_size (u8At bytes 173)
    let chromYElemSize ← fmt_elem_size (u8At bytes 174)
    .ok { offSpecIndex := u64At bytes 8
          offChromIndex := u64At bytes 16
          offSpecMeta := u64At bytes 24
          offChromMeta := u64At bytes 32
          offGlobalMeta := u64At bytes 40
          sizeContainerSpectX := u64At bytes 48
          offContainerSpectX := u64At bytes 56
          sizeContainerSpectY := u64At bytes 64
          offContainerSpectY := u64At bytes 72
          sizeContainerChromX := u64At bytes 80
          offContainerChromX := u64At bytes 88
          sizeContainerChromY := u64At bytes 96
          offContainerChromY := u64At bytes 104
          spectrumCount := u32At bytes 112
          chromCount := u32At bytes 116
          specMetaCount := u32At bytes 120
          specNumCount := u32At bytes 124
          specStrCount := u32At bytes 128
          chromMetaCount := u32At bytes 132
          chromNumCount := u32At bytes 136
          chromStrCount := u32At bytes 140
          globalMetaCount := u32At bytes 144
          globalNumCount := u32At bytes 148
          globalStrCount := u32At bytes 152
          blockCountSpectX := u32At bytes 156
          blockCountSpectY := u32At bytes 160
          blockCountChromX := u32At bytes 164
          blockCountChromY := u32At bytes 168
          codecFlags := u8At bytes 172
          codec := u8At bytes 172 % 16
          chromXFmt := u8At bytes 173
          chromYFmt := u8At bytes 174
          spectXFmt := u8At bytes 175
          spectYFmt := u8At bytes 176
          compressionLevel := u8At bytes 177
          arrayFilter := u8At bytes 178
          spectXElemSize := spectXElemSize
          spectYElemSize := spectYElemSize
          chromXElemSize := chromXElemSize
          chromYElemSize := chromYElemSize }

/-- Rust `min_nonzero_usize` from decode.rs. -/
def min_nonzero_usize (xs : List Nat) : Option Nat :=
  xs.foldl (fun m x =>
    if x = 0 then m
    else
      match m with
      | some cur => some (min cur x)
      | none => some x) none

/-- Rust `ms_cv_param` from decode.rs; `cvT` is the external CV display-name table. -/
def ms_cv_param (cvT : String → Option String) (accessionTail : Nat) : CvParam :=
  let key := "MS:" ++ pad7 accessionTail
  { cvRef := some "MS"
    accession := some key
    name := (cvT key).getD ""
    value := none
    unitCvRef := none
    unitAccession := none
    unitName := none }

/-- Rust `strip_binary_array_cv_params` from decode.rs. -/
def strip_binary_array_cv_params (params : List CvParam) : List CvParam :=
  params.filter fun p =>
    let tail := parse_acc_tail p.accession
    ¬(tail = 1000514 ∨ tail = 1000515 ∨ tail = 1000595 ∨
      tail = 1000521 ∨ tail = 1000523 ∨ tail = 1000574 ∨ tail = 1000576)

def is_isolation_window_tail (t : Nat) : Prop := t = 1000827 ∨ t = 1000828 ∨ t = 1000829

def is_selected_ion_tail (t : Nat) : Prop := t = 1000744 ∨ t = 1000041

def is_activation_tail (t : Nat) : Prop := t = 1001880 ∨ t = 1000045

instance (t : Nat) : Decidable (is_isolation_window_tail t) := by
  unfold is_isolation_window_tail
  infer_instance

instance (t : Nat) : Decidable (is_selected_ion_tail t) := by
  unfold is_selected_ion_tail
  infer_instance

instance (t : Nat) : Decidable (is_activation_tail t) := by
  unfold is_activation_tail
  infer_instance

/-- Rust `infer_precursor_list_from_spectrum_cv` from decode.rs: partition the params
into isolation-window / selected-ion / activation groups by accession tail (the
three tail sets are disjoint, so the sequential drain is three order-preserving
filters); return the inferred list plus the remaining params. -/
def infer_precursor_list_from_spectrum_cv (params : List CvParam) :
    Option PrecursorList × List CvParam :=
  let iso := params.filter fun p => is_isolation_window_tail (parse_acc_tail p.accession)
  let sel := params.filter fun p => is_selected_ion_tail (parse_acc_tail p.accession)
  let act := params.filter fun p => is_activation_tail (parse_acc_tail p.accession)
  let rest := params.filter fun p =>
    ¬(is_isolation_window_tail (parse_acc_tail p.accession) ∨
      is_selected_ion_tail (parse_acc_tail p.accession) ∨
      is_activation_tail (parse_acc_tail p.accession))
  if iso = [] ∧ sel = [] ∧ act = [] then (none, rest)
  else
    (some
      { count := some 1
        precursors :=
          [{ isolationWindow := if iso = [] then none else some { cvParams := iso }
             selectedIonList :=
               if sel = [] then none
               else some { count := some 1, selectedIons := [{ cvParams := sel }] }
             activation := if act = [] then none else some { cvParams := act } }] },
     rest)

/-- Rust `read_index_entry_with_blocks` from decode.rs. -/
def read_index_entry_with_blocks (indexBytes : List Nat) (itemIdx : Nat) :
    Res (Nat × Nat × Nat × Nat × Nat × Nat) :=
  let base := itemIdx * 32
  if indexBytes.length < base + 32 then .error (.msg "Index overflow")
  else
    .ok (leVal ((indexBytes.drop base).take 8),
         leVal ((indexBytes.drop (base + 8)).take 8),
         leVal ((indexBytes.drop (base + 16)).take 4),
         leVal ((indexBytes.drop (base + 20)).take 4),
         leVal ((indexBytes.drop (base + 24)).take 4),
         leVal ((indexBytes.drop (base + 28)).take 4))

/-- Rust `bytes_to_f64_exact` from decode.rs; each value kept as its LE bit pattern.
(The `cfg!(little-endian)` fast path is a byte-identical reinterpretation.) -/
def bytes_to_f64_exact (bytes : List Nat) : Res (List Nat) :=
  if bytes.length % 8 ≠ 0 then .error (.msg "Invalid f64 byte length")
  else .ok ((List.range (bytes.length / 8)).map fun i => leVal ((bytes.drop (8 * i)).take 8))

/-- Rust `bytes_to_f32_exact` from decode.rs. -/
def bytes_to_f32_exact (bytes : List Nat) : Res (List Nat) :=
  if bytes.length % 4 ≠ 0 then .error (.msg "Invalid f32 byte length")
  else .ok ((List.range (bytes.length / 4)).map fun i => leVal ((bytes.drop (4 * i)).take 4))

/-- Rust `decode_array_by_fmt_from_bytes` from decode.rs. -/
def decode_array_by_fmt_from_bytes (bytes : List Nat) (fmt : Nat) :
    Res (List Nat × List Nat) :=
  if fmt = 1 then do
    let v ← bytes_to_f32_exact bytes
    .ok (v, [])
  else if fmt = 2 then do
    let v ← bytes_to_f64_exact bytes
    .ok ([], v)
  else .error (.msg "Invalid float format")

/-- The eight top-level lists returned by `decode_global_meta_structs`. -/
structure GlobalMeta where
  cvList : Option CvList
  fileDescription : FileDescription
  referenceableParamGroupList : Option ReferenceableParamGroupList
  sampleList : Option SampleList
  instrumentList : Option InstrumentList
  softwareList : Option SoftwareList
  dataProcessingList : Option DataProcessingList
  scanSettingsList : Option ScanSettingsList
deriving DecidableEq, Repr

def GlobalMeta.empty : GlobalMeta :=
  { cvList := none
    fileDescription := { fileContent := { cvParams := [] } }
    referenceableParamGroupList := none
    sampleList := none
    instrumentList := none
    softwareList := none
    dataProcessingList := none
    scanSettingsList := none }

/-- The `Cv` record folded from one item's params (decode.rs lines 1110-1127). -/
def cv_from_params (params : List CvParam) : Cv :=
  params.foldl (fun c p =>
    let tail := parse_acc_tail p.accession
    if tail = 9900001 then { c with id := p.value.getD (.text []) }
    else if tail = 9900002 then { c with fullName := p.value }
    else if tail = 9900003 then { c with version := p.value }
    else if tail = 9900004 then { c with uri := p.value }
    else c)
    { id := .text [], fullName := none, version := none, uri := none }

/-- Rust `decode_global_meta_structs` from decode.rs.  The eight counts are summed as
Rust `u32` arithmetic (wrapping, hence the `% 2^32`); the iterator consumption of
`items` is modelled by sequential positions (`it.next().unwrap_or_default()` is
`items.getD k []`). -/
def decode_global_meta_structs (cvT : String → Option String) (bytes : List Nat)
    (mCnt nCnt sCnt : Nat) : Res GlobalMeta :=
  if bytes.length < 32 then .ok GlobalMeta.empty
  else do
    let nFd := u32At bytes 0
    let nRpg := u32At bytes 4
    let nSamp := u32At bytes 8
    let nInst := u32At bytes 12
    let nSoft := u32At bytes 16
    let nDp := u32At bytes 20
    let nAcq := u32At bytes 24
    let nCvs := u32At bytes 28
    let total := (nFd + nRpg + nSamp + nInst + nSoft + nDp + nAcq + nCvs) % 4294967296
    let items ← decode_meta_block cvT (bytes.drop 32) total mCnt nCnt sCnt
    let o1 := if 0 < nFd then 1 else 0
    let o2 := o1 + nRpg
    let o3 := o2 + nSamp
    let o4 := o3 + nInst
    let o5 := o4 + nSoft
    let o6 := o5 + nDp
    let o7 := o6 + nAcq
    .ok { cvList :=
            if 0 < nCvs then
              some { count := some nCvs
                     cv := (List.range nCvs).map fun k => cv_from_params (items.getD (o7 + k) []) }
            else none
          fileDescription :=
            { fileContent := { cvParams := if 0 < nFd then items.getD 0 [] else [] } }
          referenceableParamGroupList :=
            if 0 < nRpg then
              some { count := some nRpg
                     referenceableParamGroups :=
                       (List.range nRpg).map fun k => { cvParams := items.getD (o1 + k) [] } }
            else none
          sampleList :=
            if 0 < nSamp then
              some { count := some nSamp
                     samples := (List.range nSamp).map fun k => { cvParams := items.getD (o2 + k) [] } }
            else none
          instrumentList :=
            if 0 < nInst then
              some { count := some nInst
                     instrument := (List.range nInst).map fun k => { cvParam := items.getD (o3 + k) [] } }
            else none
          softwareList :=
            if 0 < nSoft then
              some { count := some nSoft
                     software := (List.range nSoft).map fun k => { cvParam := items.getD (o4 + k) [] } }
            else none
          dataProcessingList :=
            if 0 < nDp then
              some { count := some nDp
                     dataProcessing :=
                       (List.range nDp).map fun k =>
                         { processingMethod := [{ cvParam := items.getD (o5 + k) [] }] } }
            else none
          scanSettingsList :=
            if 0 < nAcq then
              some { count := some nAcq
                     scanSettings := (List.range nAcq).map fun k => { cvParams := items.getD (o6 + k) [] } }
            else none }

/-- The body of one iteration of the spectrum loop in `decode`
(decode.rs lines 619-661). -/
def build_one_spectrum (cvT : String → Option String)
    (inflZ inflS : List Nat → Option (List Nat))
    (specIndexBytes : List Nat) (cx cy : Container) (xfmt yfmt : Nat)
    (i : Nat) (itemParams : List CvParam) : Res Spectrum := do
  let (xOff, yOff, xLen, yLen, xBlock, yBlock) ←
    read_index_entry_with_blocks specIndexBytes i
  let mzBytes ← cx.slice_elems inflZ inflS xBlock xOff xLen
  let inBytes ← cy.slice_elems inflZ inflS yBlock yOff yLen
  let mzV ← decode_array_by_fmt_from_bytes mzBytes xfmt
  let inV ← decode_array_by_fmt_from_bytes inBytes yfmt
  let mzBa : BinaryDataArray :=
    { arrayLength := some xLen
      isF32 := some (xfmt == 1)
      isF64 := some (xfmt == 2)
      cvParams := [ms_cv_param cvT 1000514]
      decodedBinaryF32 := mzV.1
      decodedBinaryF64 := mzV.2 }
  let intenBa : BinaryDataArray :=
    { arrayLength := some yLen
      isF32 := some (yfmt == 1)
      isF64 := some (yfmt == 2)
      cvParams := [ms_cv_param cvT 1000515]
      decodedBinaryF32 := inV.1
      decodedBinaryF64 := inV.2 }
  let spectrumParams := strip_binary_array_cv_params itemParams
  let pr := infer_precursor_list_from_spectrum_cv spectrumParams
  .ok { id := "spectrum_" ++ toString i
        index := some i
        defaultArrayLength := some xLen
        cvParams := pr.2
        precursorList := pr.1
        binaryDataArrayList := some { count := some 2, binaryDataArrays := [mzBa, intenBa] } }

/-- The spectrum loop of `decode` over the per-item metadata, with its
enumeration counter. -/
def build_spectra (cvT : String → Option String)
    (inflZ inflS : List Nat → Option (List Nat))
    (specIndexBytes : List Nat) (cx cy : Container) (xfmt yfmt : Nat) :
    Nat → List (List CvParam) → Res (List Spectrum)
  | _, [] => .ok []
  | i, itemParams :: rest => do
    let s ← build_one_spectrum cvT inflZ inflS specIndexBytes cx cy xfmt yfmt i itemParams
    let ss ← build_spectra cvT inflZ inflS specIndexBytes cx cy xfmt yfmt (i + 1) rest
    .ok (s :: ss)

/-- The body of one iteration of the chromatogram loop in `decode`
(decode.rs lines 665-705). -/
def build_one_chromatogram (cvT : String → Option String)
    (inflZ inflS : List Nat → Option (List Nat))
    (chromIndexBytes : List Nat) (cx cy : Container) (xfmt yfmt : Nat)
    (j : Nat) (itemParams : List CvParam) : Res Chromatogram := do
  let (xOff, yOff, xLen, yLen, xBlock, yBlock) ←
    read_index_entry_with_blocks chromIndexBytes j
  let tBytes ← cx.slice_elems inflZ inflS xBlock xOff xLen
  let inBytes ← cy.slice_elems inflZ inflS yBlock yOff yLen
  let tV ← decode_array_by_fmt_from_bytes tBytes xfmt
  let inV ← decode_array_by_fmt_from_bytes inBytes yfmt
  let timeBa : BinaryDataArray :=
    { arrayLength := some xLen
      isF32 := some (xfmt == 1)
      isF64 := some (xfmt == 2)
      cvParams := [ms_cv_param cvT 1000595]
      decodedBinaryF32 := tV.1
      decodedBinaryF64 := tV.2 }
  let intenBa : BinaryDataArray :=
    { arrayLength := some yLen
      isF32 := some (yfmt == 1)
      isF64 := some (yfmt == 2)
      cvParams := [ms_cv_param cvT 1000515]
      decodedBinaryF32 := inV.1
      decodedBinaryF64 := inV.2 }
  let chromParams := strip_binary_array_cv_params itemParams
  .ok { id := "chromatogram_" ++ toString j
        index := some j
        defaultArrayLength := some xLen
        cvParams := chromParams
        binaryDataArrayList := some { count := some 2, binaryDataArrays := [timeBa, intenBa] } }

/-- The chromatogram loop of `decode`. -/
def build_chromatograms (cvT : String → Option String)
    (inflZ inflS : List Nat → Option (List Nat))
    (chromIndexBytes : List Nat) (cx cy : Container) (xfmt yfmt : Nat) :
    Nat → List (List CvParam) → Res (List Chromatogram)
  | _, [] => .ok []
  | j, itemParams :: rest => do
    let s ← build_one_chromatogram cvT inflZ inflS chromIndexBytes cx cy xfmt yfmt j itemParams
    let ss ← build_chromatograms cvT inflZ inflS chromIndexBytes cx cy xfmt yfmt (j + 1) rest
    .ok (s :: ss)

/-- The function `decode` from decode.rs (the public entry point), parameterized by the
external CV table `cvT` and the zlib/zstd decompressors `inflZ`/`inflS`.  The
steps run in source order: header, index slices, metadata region slices and
guards, metadata decompression, the four containers, the three metadata blocks,
then the spectrum and chromatogram loops. -/
def decode (cvT : String → Option String)
    (inflZ inflS : List Nat → Option (List Nat)) (bytes : List Nat) : Res MzML := do
  let h ← parse_header_fields bytes
  let specIndexBytes ← read_slice bytes h.offSpecIndex (h.spectrumCount * 32)
  let chromIndexBytes ← read_slice bytes h.offChromIndex (h.chromCount * 32)
  if h.offChromMeta < h.offSpecMeta ∨ h.offGlobalMeta < h.offChromMeta then
    .error (.msg "Invalid meta offsets")
  else do
    let specMetaRaw ← read_slice bytes h.offSpecMeta (h.offChromMeta - h.offSpecMeta)
    let chromMetaRaw ← read_slice bytes h.offChromMeta (h.offGlobalMeta - h.offChromMeta)
    let firstContainerOff :=
      (min_nonzero_usize [h.offContainerSpectX, h.offContainerSpectY,
        h.offContainerChromX, h.offContainerChromY]).getD bytes.length
    if firstContainerOff < h.offGlobalMeta then
      .error (.msg "Invalid global meta/container offsets")
    else do
      let globalMetaRaw ← read_slice bytes h.offGlobalMeta (firstContainerOff - h.offGlobalMeta)
      let specMeta ←
        decompress_meta_if_needed inflZ inflS h.codec (h.codecFlags / 16 % 2 = 1) specMetaRaw
      let chromMeta ←
        decompress_meta_if_needed inflZ inflS h.codec (h.codecFlags / 32 % 2 = 1) chromMetaRaw
      let globalMeta ←
        decompress_meta_if_needed inflZ inflS h.codec (h.codecFlags / 64 % 2 = 1) globalMetaRaw
      let spectXContainer ← Container.new bytes h.offContainerSpectX h.sizeContainerSpectX
        h.blockCountSpectX h.codec h.compressionLevel h.spectXElemSize h.arrayFilter
      let spectYContainer ← Container.new bytes h.offContainerSpectY h.sizeContainerSpectY
        h.blockCountSpectY h.codec h.compressionLevel h.spectYElemSize h.arrayFilter
      let chromXContainer ← Container.new bytes h.offContainerChromX h.sizeContainerChromX
        h.blockCountChromX h.codec h.compressionLevel h.chromXElemSize h.arrayFilter
      let chromYContainer ← Container.new bytes h.offContainerChromY h.sizeContainerChromY
        h.blockCountChromY h.codec h.compressionLevel h.chromYElemSize h.arrayFilter
      let specMetaByItem ←
        decode_meta_block cvT specMeta h.spectrumCount h.specMetaCount h.specNumCount h.specStrCount
      let chromMetaByItem ←
        decode_meta_block cvT chromMeta h.chromCount h.chromMetaCount h.chromNumCount h.chromStrCount
      let globals ←
        decode_global_meta_structs cvT globalMeta h.globalMetaCount h.globalNumCount h.globalStrCount
      let spectra ← build_spectra cvT inflZ inflS specIndexBytes spectXContainer spectYContainer
        h.spectXFmt h.spectYFmt 0 specMetaByItem
      let chromatograms ← build_chromatograms cvT inflZ inflS chromIndexBytes chromXContainer
        chromYContainer h.chromXFmt h.chromYFmt 0 chromMetaByItem
      .ok { cvList := globals.cvList
            fileDescription := globals.fileDescription
            referenceableParamGroupList := globals.referenceableParamGroupList
            sampleList := globals.sampleList
            instrumentList := globals.instrumentList
            softwareList := globals.softwareList
            dataProcessingList := globals.dataProcessingList
            scanSettingsList := globals.scanSettingsList
            run := { id := "run"
                     spectrumList := some { count := some h.spectrumCount, spectra := spectra }
                     chromatogramList :=
                       some { count := some h.chromCount, chromatograms := chromatograms } } }

/-! Concrete instantiations of the external collaborators and concrete input
files used by the witnesses and counterexamples. -/

/-- Trivial CV table: no accession has a display name. -/
def cvT0 : String → Option String := fun _ => none

/-- Trivial decompressor: every stream is invalid.  The concrete inputs below
use `compression_level = 0` and `codec_flags = 0`, so it is never consulted. -/
def z0 : List Nat → Option (List Nat) := fun _ => none

/-- A 192-byte file: magic `B000`, endianness 0, everything else zero. -/
def exZero192 : List Nat := [66, 48, 48, 48] ++ List.replicate 188 0

/-- A 192-byte header that is all zero except: valid magic, chromatogram format
bytes (offsets 173, 174) set to 1 (f32) and spectrum format bytes (offsets 175,
176) set to 2 (f64). -/
def exHdrFmt : List Nat :=
  [66, 48, 48, 48] ++ List.replicate 169 0 ++ [1, 1, 2, 2] ++ List.replicate 15 0

/-- A complete 324-byte file with one spectrum whose index entry claims an X
array of 1 element and a Y array of 2 elements (both f64, uncompressed,
unfiltered); every region is well-formed and `decode` succeeds. -/
def exOneSpectrum : List Nat :=
  [66, 48, 48, 48] ++ [0, 0, 0, 0] ++
  le8 192 ++ le8 224 ++ le8 224 ++ le8 232 ++ le8 236 ++
  le8 40 ++ le8 236 ++ le8 48 ++ le8 276 ++ le8 0 ++ le8 0 ++ le8 0 ++ le8 0 ++
  le4 1 ++ le4 0 ++
  le4 0 ++ le4 0 ++ le4 0 ++
  le4 0 ++ le4 0 ++ le4 0 ++
  le4 0 ++ le4 0 ++ le4 0 ++
  le4 1 ++ le4 1 ++ le4 0 ++ le4 0 ++
  [0] ++ [2, 2, 2, 2] ++ [0] ++ [0] ++ List.replicate 13 0 ++
  le8 0 ++ le8 0 ++ le4 1 ++ le4 2 ++ le4 0 ++ le4 0 ++
  le4 0 ++ le4 0 ++
  le4 0 ++
  le8 0 ++ le8 8 ++ le8 8 ++ le8 0 ++ List.replicate 8 0 ++
  le8 0 ++ le8 16 ++ le8 16 ++ le8 0 ++ List.replicate 16 0

/-- A 236-byte file whose spectrum metadata block declares `meta_count = 0` but
an `item_indices` prefix sum of `[0, 1]`: the metadata item loop then indexes
`value_kinds[0]` in an empty slice and the Rust process panics. -/
def exPanic : List Nat :=
  [66, 48, 48, 48] ++ [0, 0, 0, 0] ++
  le8 192 ++ le8 224 ++ le8 224 ++ le8 232 ++ le8 236 ++
  le8 0 ++ le8 0 ++ le8 0 ++ le8 0 ++ le8 0 ++ le8 0 ++ le8 0 ++ le8 0 ++
  le4 1 ++ le4 0 ++
  le4 0 ++ le4 0 ++ le4 0 ++
  le4 0 ++ le4 0 ++ le4 0 ++
  le4 0 ++ le4 0 ++ le4 0 ++
  le4 0 ++ le4 0 ++ le4 0 ++ le4 0 ++
  [0] ++ [2, 2, 2, 2] ++ [0] ++ [0] ++ List.replicate 13 0 ++
  List.replicate 32 0 ++
  le4 0 ++ le4 1 ++
  le4 0

/-- A 23-byte metadata block holding one item with one metadatum of numeric kind
whose value index 5 is out of range (`num_count = 0`). -/
def exMetaOutOfRange : List Nat :=
  le4 0 ++ le4 1 ++ [0] ++ le4 1000514 ++ [255] ++ le4 0 ++ [0] ++ le4 5

/-- Projection of a decode result: the X and Y decoded lengths and the
`default_array_length` of the first spectrum, when the shape matches. -/
def spectrum0_lens (r : Res MzML) : Option (Nat × Nat × Option Nat) :=
  match r with
  | .ok doc =>
    match doc.run.spectrumList with
    | some sl =>
      match sl.spectra with
      | s :: _ =>
        match s.binaryDataArrayList with
        | some l =>
          match l.binaryDataArrays with
          | [x, y] =>
            some (x.decodedBinaryF32.length + x.decodedBinaryF64.length,
                  y.decodedBinaryF32.length + y.decodedBinaryF64.length,
                  s.defaultArrayLength)
          | _ => none
        | none => none
      | [] => none
    | none => none
  | .error _ => none

/-- A 104-byte container region: one directory entry claiming
`uncomp_bytes = 80` over a 72-byte stored payload. -/
def exShortBlock : List Nat := le8 0 ++ le8 72 ++ le8 80 ++ le8 0 ++ List.replicate 72 1

/-- The compressed window of a directory entry inside a container's payload
region (`[comp_off, comp_off + comp_size)` in `Container::block_bytes`). -/
def comp_window (c : Container) (e : BlockDirEntry) : List Nat :=
  (c.compressedRegion.drop e.compOff).take e.compSize

/-- The container parsed from `exShortBlock`. -/
def cShort : Container :=
  { compressedRegion := List.replicate 72 1
    dir := [{ compOff := 0, compSize := 72, uncompBytes := 80 }]
    blockStartElems := [0, 10]
    codec := 0
    compressionLevel := 0
    elemSize := 8
    arrayFilter := 0 }

/-- The metadata tables parsed from `exMetaOutOfRange`. -/
def tEx : MetaTables :=
  { itemIndices := [0, 1]
    refCodes := [0]
    accessions := [1000514]
    unitRefs := [255]
    unitAccessions := [0]
    valueKinds := [0]
    valueIndices := [5]
    numericValues := []
    stringOffsets := []
    stringLengths := []
    stringsData := [] }

/-- Total decoded length of a binary-data array (one of the two vectors is
always empty in decoder output). -/
def bda_len (b : BinaryDataArray) : Nat :=
  b.decodedBinaryF32.length + b.decodedBinaryF64.length

/-- The amended C2 shape of one decoded item: its list holds exactly an X and a
Y array, tagged with the given X accession tail and the intensity tail; each
array's `array_length` equals its own decoded length; and `default_array_length`
is present and equals the X array's decoded length (not necessarily the Y
array's). -/
def has_xy_arrays (cvT : String → Option String) (xTail : Nat) (dal : Option Nat)
    (obl : Option BinaryDataArrayList) : Prop :=
  ∃ xba yba, obl = some { count := some 2, binaryDataArrays := [xba, yba] } ∧
    dal = some (bda_len xba) ∧
    xba.arrayLength = some (bda_len xba) ∧ yba.arrayLength = some (bda_len yba) ∧
    xba.cvParams = [ms_cv_param cvT xTail] ∧ yba.cvParams = [ms_cv_param cvT 1000515]

/-- A two-block container region: block 0 holds 1 element, block 1 holds 2
elements (8-byte elements, stored raw). -/
def exTwoBlocks : List Nat :=
  le8 0 ++ le8 8 ++ le8 8 ++ le8 0 ++ le8 8 ++ le8 16 ++ le8 16 ++ le8 0 ++
    List.replicate 24 0

/-- The container parsed from `exTwoBlocks`. -/
def cTwo : Container :=
  { compressedRegion := List.replicate 24 0
    dir := [{ compOff := 0, compSize := 8, uncompBytes := 8 },
            { compOff := 8, compSize := 16, uncompBytes := 16 }]
    blockStartElems := [0, 1, 3]
    codec := 0
    compressionLevel := 0
    elemSize := 8
    arrayFilter := 0 }

/-- Modelled from the spec: the byte-shuffle applied by the encoder, whose source
file (`encode.rs`) is not under `src/`.  Per spec section 4.3, the shuffled buffer is
laid out as `element_size` contiguous planes of `N` bytes each, plane `p` holding
byte `p` of every element: output byte `p * N + e` is input byte
`e * element_size + p`. -/
def shuffle_spec (b : List Nat) (elemSize : Nat) : List Nat :=
  (List.range b.length).map fun j =>
    b.getD ((j % (b.length / elemSize)) * elemSize + j / (b.length / elemSize)) 0

/-- A toy decompressor for the C8 witness: only the stream `[7, 7]` is valid. -/
def zW : List Nat → Option (List Nat) := fun l => if l = [7, 7] then some [9, 9, 9] else none

theorem ebind_ok {α β : Type} {x : Res α} {f : α → Res β} {b : β} :
    x >>= f = .ok b ↔ ∃ a, x = .ok a ∧ f a = .ok b := by
  cases x <;> simp [Bind.bind, Except.bind]

theorem emap_ok_get {f : α → Res β} {l : List α} {r : List β}
    (h : emap f l = .ok r) :
    r.length = l.length ∧ ∀ i a, l.get? i = some a → ∃ b, r.get? i = some b ∧ f a = .ok b := by
  induction l generalizing r with
  | nil =>
    simp [emap] at h
    subst h
    simp
  | cons x xs ih =>
    simp only [emap, ebind_ok] at h
    obtain ⟨y, hy, ys, hys, h3⟩ := h
    simp only [Except.ok.injEq] at h3
    subst h3
    obtain ⟨hlen, hget⟩ := ih hys
    refine ⟨by simp [hlen], ?_⟩
    intro i a ha
    cases i with
    | zero =>
      simp at ha
      subst ha
      exact ⟨y, by simp, hy⟩
    | succ j =>
      simp only [List.get?_cons_succ] at ha ⊢
      exact hget j a ha

example : exOneSpectrum.length = 324 := by decide
example : exPanic.length = 236 := by decide

example : decode cvT0 z0 z0 exZero192 = .error (.msg "Invalid float format") := rfl
example : decode cvT0 z0 z0 exPanic = .error .panicked := rfl
example : spectrum0_lens (decode cvT0 z0 z0 exOneSpectrum) = some (1, 2, some 1) := rfl

example :
    (Container.new exShortBlock 0 104 1 0 0 8 0).bind (fun c => c.block_bytes z0 z0 0) =
      .ok (List.replicate 72 1) := rfl

example :
    (decode_meta_block cvT0 exMetaOutOfRange 1 1 0 0).map
      (fun r => r.map (fun ps => ps.map (fun p => (p.accession, p.value)))) =
      .ok [[(some "MS:1000514", none)]] := rfl

/-! Claim theorems. -/

/-- Claim C9 (confirmed): decode is deterministic — it is a pure function of the
input bytes (given the fixed external CV table and decompressors), so equal
inputs give equal results, documents and errors alike. -/
theorem C9_decode_deterministic (cvT : String → Option String)
    (inflZ inflS : List Nat → Option (List Nat)) (b1 b2 : List Nat) (h : b1 = b2) :
    decode cvT inflZ inflS b1 = decode cvT inflZ inflS b2 := by
  rw [h]

theorem C9_decode_deterministic_witness :
    decode cvT0 z0 z0 [66, 48, 48] = decode cvT0 z0 z0 [66, 48, 48] :=
  C9_decode_deterministic cvT0 z0 z0 [66, 48, 48] [66, 48, 48] rfl

/-- Claim C10 (code bug): decode is not total — on `exPanic`, whose spectrum
metadata block has `meta_count = 0` but `item_indices = [0, 1]`, the metadata
item loop executes `value_kinds[0]` on an empty slice and the Rust process
panics (decode.rs line 931) instead of returning an error. -/
theorem C10_decode_panics_on_oversized_item_indices :
    decode cvT0 z0 z0 exPanic = .error .panicked := rfl

/-- Claim C4, counterexample: a 192-byte input with magic `B000`, endianness 0
and every other byte zero is rejected (`fmt_elem_size` refuses the zero format
bytes at offsets 173-176, decode.rs lines 489-492 and 749-755); it does not
decode to an empty document as the claim states. -/
theorem C4_counterexample :
    decode cvT0 z0 z0 exZero192 = .error (.msg "Invalid float format") := rfl

/-- Claim C4, amended: every input shorter than 192 bytes fails with the
truncation error, and the all-zero 192-byte input with a valid magic fails with
an invalid-float-format error (rather than decoding to an empty document). -/
theorem C4_short_input_truncated (cvT : String → Option String)
    (inflZ inflS : List Nat → Option (List Nat)) :
    (∀ b : List Nat, b.length < 192 →
      decode cvT inflZ inflS b = .error (.msg "Buffer too small for header")) ∧
    decode cvT inflZ inflS exZero192 = .error (.msg "Invalid float format") := by
  constructor
  · intro b hb
    simp [decode, parse_header_fields, hb, Bind.bind, Except.bind]
  · rfl

theorem C4_short_input_truncated_witness :
    ([66] : List Nat).length < 192 ∧
      decode cvT0 z0 z0 [66] = .error (.msg "Buffer too small for header") :=
  ⟨by decide, (C4_short_input_truncated cvT0 z0 z0).1 [66] (by decide)⟩

/-- Claim C5, counterexample: with `compression_level = 0` and no byte-shuffle,
a stored block whose length 72 differs from the directory's `uncomp_bytes = 80`
is returned unchecked (`block_bytes` takes the `!needs_owned` early return,
decode.rs lines 172-177), so block decoding does not fail on the mismatch. -/
theorem C5_counterexample :
    (Container.new exShortBlock 0 104 1 0 0 8 0).bind (fun c => c.block_bytes z0 z0 0) =
        .ok (List.replicate 72 1) ∧
      (Container.new exShortBlock 0 104 1 0 0 8 0).map
        (fun c => (c.dir.getD 0 { compOff := 0, compSize := 0, uncompBytes := 0 }).uncompBytes) =
        .ok 80 ∧
      (72 : Nat) ≠ 80 :=
  ⟨rfl, rfl, by decide⟩

/-- Claim C5, amended: the size check runs only when the block is materialized.
With a non-zero compression level the decompressed bytes must match a non-zero
`uncomp_bytes` exactly or the block fails; with level 0 the stored bytes are
checked only when the byte-shuffle filter forces a copy, and a raw block with no
unshuffle pending is returned without any length check; a directory entry with
`uncomp_bytes = 0` is never length-checked. -/
theorem C5_block_size_mismatch_checks (c : Container)
    (inflZ inflS : List Nat → Option (List Nat)) (blockId : Nat) (e : BlockDirEntry)
    (hid : blockId < c.dir.length)
    (he : c.dir.getD blockId { compOff := 0, compSize := 0, uncompBytes := 0 } = e)
    (hov : e.compOff + e.compSize ≤ U64MAX)
    (hreg : e.compOff + e.compSize ≤ c.compressedRegion.length) :
    (c.compressionLevel = 0 → ¬(c.arrayFilter = 1 ∧ 1 < c.elemSize) →
      c.block_bytes inflZ inflS blockId = .ok (comp_window c e)) ∧
    (c.compressionLevel = 0 → c.arrayFilter = 1 ∧ 1 < c.elemSize →
      e.uncompBytes ≠ 0 → (comp_window c e).length ≠ e.uncompBytes →
      c.block_bytes inflZ inflS blockId = .error (.msg "Uncompressed block size mismatch")) ∧
    (∀ v, c.compressionLevel ≠ 0 → c.codec = 0 → inflZ (comp_window c e) = some v →
      e.uncompBytes ≠ 0 → v.length ≠ e.uncompBytes →
      c.block_bytes inflZ inflS blockId = .error (.msg "Inflated block size mismatch")) ∧
    (∀ v, c.compressionLevel ≠ 0 → c.codec = 1 → inflS (comp_window c e) = some v →
      e.uncompBytes ≠ 0 → v.length ≠ e.uncompBytes →
      c.block_bytes inflZ inflS blockId = .error (.msg "Inflated block size mismatch")) := by
  have hdir : ¬ c.dir.length ≤ blockId := by omega
  have he' : c.dir[blockId]?.getD { compOff := 0, compSize := 0, uncompBytes := 0 } = e := by
    simpa [List.getD_eq_getElem?_getD] using he
  have hov2 : ¬ U64MAX < e.compOff + e.compSize := by omega
  have hreg2 : ¬ c.compressedRegion.length < e.compOff + e.compSize := by omega
  refine ⟨?_, ?_, ?_, ?_⟩
  · intro hlvl hfilt
    simp [Container.block_bytes, hdir, he', hov2, hreg2, comp_window, hlvl, hfilt]
  · intro hlvl hfilt hnz hne
    simp only [comp_window] at hne
    simp [Container.block_bytes, hdir, he', hov2, hreg2, hlvl, hfilt.1, hfilt.2, hnz, hne,
      Bind.bind, Except.bind]
    intro hmin
    exact absurd (by simpa using hmin :
      (List.take e.compSize (List.drop e.compOff c.compressedRegion)).length = e.uncompBytes) hne
  · intro v hlvl hcodec hz hnz hne
    simp only [comp_window] at hz
    simp [Container.block_bytes, hdir, he', hov2, hreg2, hlvl, hcodec, hz, hnz, hne,
      Bind.bind, Except.bind]
  · intro v hlvl hcodec hz hnz hne
    simp only [comp_window] at hz
    by_cases hc0 : c.codec = 0
    · rw [hc0] at hcodec
      omega
    · simp [Container.block_bytes, hdir, he', hov2, hreg2, hlvl, hc0, hcodec, hz, hnz, hne,
        Bind.bind, Except.bind]

example : Container.new exShortBlock 0 104 1 0 0 8 0 = .ok cShort := rfl

theorem C5_block_size_mismatch_checks_witness :
    cShort.block_bytes z0 z0 0 =
        .ok (comp_window cShort { compOff := 0, compSize := 72, uncompBytes := 80 }) ∧
      comp_window cShort { compOff := 0, compSize := 72, uncompBytes := 80 } =
        List.replicate 72 1 :=
  ⟨(C5_block_size_mismatch_checks cShort z0 z0 0
      { compOff := 0, compSize := 72, uncompBytes := 80 }
      (by decide) (by decide) (by decide) (by decide)).1 rfl (by decide), rfl⟩

example : meta_tables exMetaOutOfRange 1 1 0 0 = .ok tEx := rfl

/-- Claim C6, counterexample: a block with a numeric-kind metadatum whose value
index 5 is not below `num_count = 0` is accepted — `decode_meta_block` returns a
parameter with no value instead of an error (decode.rs lines 934-950). -/
theorem C6_counterexample :
    (decode_meta_block cvT0 exMetaOutOfRange 1 1 0 0).map
        (fun r => r.map (fun ps => ps.map (fun p => (p.accession, p.value)))) =
      .ok [[(some "MS:1000514", none)]] := rfl

theorem read_slice_ok {b : List Nat} {o l : Nat} {s : List Nat}
    (h : read_slice b o l = .ok s) : s = (b.drop o).take l ∧ o + l ≤ b.length := by
  unfold read_slice at h
  split at h
  · simp only [Except.ok.injEq] at h
    exact ⟨h.symm, by assumption⟩
  · cases h

theorem read_slice_ok_length {b : List Nat} {o l : Nat} {s : List Nat}
    (h : read_slice b o l = .ok s) : s.length = l := by
  obtain ⟨hs, hle⟩ := read_slice_ok h
  subst hs
  simp
  omega

theorem read_u32_vec_ok {b : List Nat} {c : Nat} {v : List Nat}
    (h : read_u32_vec b c = .ok v) :
    v = (List.range c).map fun i => leVal ((b.drop (4 * i)).take 4) := by
  unfold read_u32_vec at h
  split at h
  · cases h
  · simp only [Except.ok.injEq] at h
    exact h.symm

theorem read_f64_vec_ok {b : List Nat} {c : Nat} {v : List Nat}
    (h : read_f64_vec b c = .ok v) :
    v = (List.range c).map fun i => leVal ((b.drop (8 * i)).take 8) := by
  unfold read_f64_vec at h
  split at h
  · cases h
  · simp only [Except.ok.injEq] at h
    exact h.symm

/-- Lengths of the tables produced by `meta_tables`. -/
theorem meta_tables_lengths {bytes : List Nat} {ic mc nc sc : Nat} {t : MetaTables}
    (h : meta_tables bytes ic mc nc sc = .ok t) :
    t.itemIndices.length = ic + 1 ∧ t.valueKinds.length = mc ∧
      t.valueIndices.length = mc ∧ t.numericValues.length = nc ∧
      t.stringOffsets.length = sc ∧ t.stringLengths.length = sc := by
  simp only [meta_tables, ebind_ok] at h
  obtain ⟨s0, hs0, ii, hii, rc, hrc, s2, hs2, acc, hacc, ur, hur, s4, hs4, ua, hua,
    vk, hvk, s6, hs6, vi, hvi, s7, hs7, nv, hnv, s8, hs8, so, hso, s9, hs9, sl, hsl,
    sd, hsd, hfin⟩ := h
  simp only [Except.ok.injEq] at hfin
  subst hfin
  refine ⟨?_, ?_, ?_, ?_, ?_, ?_⟩
  · rw [read_u32_vec_ok hii]
    simp
  · exact read_slice_ok_length hvk
  · rw [read_u32_vec_ok hvi]
    simp
  · rw [read_f64_vec_ok hnv]
    simp
  · rw [read_u32_vec_ok hso]
    simp
  · rw [read_u32_vec_ok hsl]
    simp

/-- Claim C6, amended: an out-of-range `value_indices` entry does not make the
metadata decoder reject the block.  When the block parses, the metadatum at
position `m` of item `i` becomes a `CvParam` whose value is `none` for a
numeric-kind index not below `num_count` or a text-kind index not below
`str_count`, and the empty string for a text whose window exceeds
`strings_data`; the block is still decoded. -/
theorem C6_out_of_range_value_indices_tolerated
    (cvT : String → Option String) (bytes : List Nat) (ic mc nc sc : Nat)
    (t : MetaTables) (res : List (List CvParam)) (i m : Nat)
    (ht : meta_tables bytes ic mc nc sc = .ok t)
    (hres : decode_meta_block cvT bytes ic mc nc sc = .ok res)
    (hi : i < ic)
    (hs : t.itemIndices.getD i 0 ≤ m)
    (he : m < t.itemIndices.getD (i + 1) 0) :
    ∃ ps p, res.get? i = some ps ∧
      ps.get? (m - t.itemIndices.getD i 0) = some p ∧ p = meta_param cvT t m ∧
      (t.valueKinds.getD m 0 = 0 → nc ≤ t.valueIndices.getD m 0 → p.value = none) ∧
      (t.valueKinds.getD m 0 = 1 → sc ≤ t.valueIndices.getD m 0 → p.value = none) ∧
      (t.valueKinds.getD m 0 = 1 → t.valueIndices.getD m 0 < sc →
        t.stringsData.length <
          t.stringOffsets.getD (t.valueIndices.getD m 0) 0 +
            t.stringLengths.getD (t.valueIndices.getD m 0) 0 →
        p.value = some (.text [])) := by
  have hlen := meta_tables_lengths ht
  simp only [decode_meta_block, ebind_ok] at hres
  obtain ⟨t2, ht2, hmap⟩ := hres
  rw [ht] at ht2
  simp only [Except.ok.injEq] at ht2
  subst ht2
  obtain ⟨hrl, hrg⟩ := emap_ok_get hmap
  obtain ⟨ps, hps, hfi⟩ := hrg i i (by simp [List.get?_eq_getElem?, List.getElem?_range hi])
  simp only [ebind_ok] at hfi
  obtain ⟨r, hr, hok⟩ := hfi
  simp only [Except.ok.injEq] at hok
  subst hok
  unfold item_meta_range at hr
  split at hr
  · omega
  · split at hr
    · simp only [Except.ok.injEq] at hr
      subst hr
      refine ⟨_, meta_param cvT t m, hps, ?_, rfl, ?_, ?_, ?_⟩
      · have hlt : m - t.itemIndices.getD i 0 <
            t.itemIndices.getD (i + 1) 0 - t.itemIndices.getD i 0 := by omega
        rw [List.get?_eq_getElem?, List.getElem?_map, List.getElem?_range' _ _ hlt]
        have harg : t.itemIndices.getD i 0 + 1 * (m - t.itemIndices.getD i 0) = m := by omega
        rw [harg]
        rfl
      · intro hk hv
        have h1 : ¬ (t.valueKinds.getD m 0 = 0 ∧
            t.valueIndices.getD m 0 < t.numericValues.length) := by
          rw [hlen.2.2.2.1]
          omega
        have h2 : ¬ (t.valueKinds.getD m 0 = 1 ∧
            t.valueIndices.getD m 0 < t.stringOffsets.length) := by
          rw [hk]
          simp
        show meta_value t m = none
        unfold meta_value
        rw [if_neg h1, if_neg h2]
      · intro hk hv
        have h1 : ¬ (t.valueKinds.getD m 0 = 0 ∧
            t.valueIndices.getD m 0 < t.numericValues.length) := by
          rw [hk]
          simp
        have h2 : ¬ (t.valueKinds.getD m 0 = 1 ∧
            t.valueIndices.getD m 0 < t.stringOffsets.length) := by
          rw [hlen.2.2.2.2.1]
          omega
        show meta_value t m = none
        unfold meta_value
        rw [if_neg h1, if_neg h2]
      · intro hk hv hw
        have h1 : ¬ (t.valueKinds.getD m 0 = 0 ∧
            t.valueIndices.getD m 0 < t.numericValues.length) := by
          rw [hk]
          simp
        have h2 : t.valueKinds.getD m 0 = 1 ∧
            t.valueIndices.getD m 0 < t.stringOffsets.length := by
          rw [hlen.2.2.2.2.1]
          omega
        have hnw : ¬ (t.stringOffsets.getD (t.valueIndices.getD m 0) 0 +
            t.stringLengths.getD (t.valueIndices.getD m 0) 0 ≤ t.stringsData.length) := by
          omega
        show meta_value t m = some (.text [])
        unfold meta_value
        rw [if_neg h1, if_pos h2, if_neg hnw]
    · cases hr

theorem C6_out_of_range_value_indices_tolerated_witness :
    decode_meta_block cvT0 exMetaOutOfRange 1 1 0 0 = .ok [[meta_param cvT0 tEx 0]] ∧
      (∃ ps p, ([[meta_param cvT0 tEx 0]] : List (List CvParam)).get? 0 = some ps ∧
        ps.get? (0 - tEx.itemIndices.getD 0 0) = some p ∧ p = meta_param cvT0 tEx 0 ∧
        (tEx.valueKinds.getD 0 0 = 0 → 0 ≤ tEx.valueIndices.getD 0 0 → p.value = none) ∧
        (tEx.valueKinds.getD 0 0 = 1 → 0 ≤ tEx.valueIndices.getD 0 0 → p.value = none) ∧
        (tEx.valueKinds.getD 0 0 = 1 → tEx.valueIndices.getD 0 0 < 0 →
          tEx.stringsData.length <
            tEx.stringOffsets.getD (tEx.valueIndices.getD 0 0) 0 +
              tEx.stringLengths.getD (tEx.valueIndices.getD 0 0) 0 →
          p.value = some (.text []))) :=
  ⟨rfl,
   C6_out_of_range_value_indices_tolerated cvT0 exMetaOutOfRange 1 1 0 0 tEx
     [[meta_param cvT0 tEx 0]] 0 0 rfl rfl (by decide) (by decide) (by decide)⟩

/-- Inversion of `parse_header_fields`: the field characterizations used by the
claims about the header layout. -/
theorem parse_header_fields_ok {bytes : List Nat} {h : Hdr}
    (hok : parse_header_fields bytes = .ok h) :
    192 ≤ bytes.length ∧
      fmt_elem_size h.spectXFmt = .ok h.spectXElemSize ∧
      fmt_elem_size h.spectYFmt = .ok h.spectYElemSize ∧
      fmt_elem_size h.chromXFmt = .ok h.chromXElemSize ∧
      fmt_elem_size h.chromYFmt = .ok h.chromYElemSize ∧
      h.chromXFmt = u8At bytes 173 ∧ h.chromYFmt = u8At bytes 174 ∧
      h.spectXFmt = u8At bytes 175 ∧ h.spectYFmt = u8At bytes 176 ∧
      h.sizeContainerSpectX = u64At bytes 48 ∧ h.offContainerSpectX = u64At bytes 56 ∧
      h.sizeContainerSpectY = u64At bytes 64 ∧ h.offContainerSpectY = u64At bytes 72 ∧
      h.sizeContainerChromX = u64At bytes 80 ∧ h.offContainerChromX = u64At bytes 88 ∧
      h.sizeContainerChromY = u64At bytes 96 ∧ h.offContainerChromY = u64At bytes 104 := by
  unfold parse_header_fields at hok
  split at hok
  · cases hok
  · split at hok
    · cases hok
    · split at hok
      · cases hok
      · simp only [ebind_ok] at hok
        obtain ⟨sxe, hsxe, sye, hsye, cxe, hcxe, cye, hcye, hfin⟩ := hok
        simp only [Except.ok.injEq] at hfin
        subst hfin
        refine ⟨by omega, hsxe, hsye, hcxe, hcye, rfl, rfl, rfl, rfl,
          rfl, rfl, rfl, rfl, rfl, rfl, rfl, rfl⟩

/-- The map `fmt_elem_size` succeeds exactly on formats 1 (4 bytes) and 2 (8 bytes). -/
theorem fmt_elem_size_cases {f s : Nat} (h : fmt_elem_size f = .ok s) :
    (f = 1 ∧ s = 4) ∨ (f = 2 ∧ s = 8) := by
  unfold fmt_elem_size at h
  split at h
  · simp only [Except.ok.injEq] at h
    exact Or.inl ⟨by assumption, h.symm⟩
  · split at h
    · simp only [Except.ok.injEq] at h
      exact Or.inr ⟨by assumption, h.symm⟩
    · cases h

/-- Claim C3, counterexample: in `exHdrFmt`, byte 173 is 1 and byte 175 is 2; the
claim predicts a spectrum-X format of 1 (f32, 4-byte elements) read from offset
173, but the decoder's spectrum-X format is 2 (f64, 8-byte elements), read from
offset 175 — offsets 173-176 hold the chromatogram formats first
(decode.rs lines 482-485). -/
theorem C3_counterexample :
    (parse_header_fields exHdrFmt).map (fun h => (h.spectXFmt, h.spectXElemSize)) =
        .ok (2, 8) ∧
      (parse_header_fields exHdrFmt).map (fun h => (h.chromXFmt, h.chromXElemSize)) =
        .ok (1, 4) ∧
      u8At exHdrFmt 173 = 1 ∧ u8At exHdrFmt 175 = 2 :=
  ⟨rfl, rfl, rfl, rfl⟩

/-- Claim C3, amended: the decoder reads the element-format bytes at header
offsets 173, 174, 175, 176 as the formats of, respectively, the chromatogram-X,
chromatogram-Y, spectrum-X and spectrum-Y containers — the reverse pair order of
the size/off pairs at offsets 48..112, which are spectrum-X, spectrum-Y,
chromatogram-X, chromatogram-Y — with 1 meaning f32 (4-byte elements) and 2
meaning f64 (8-byte elements). -/
theorem C3_format_byte_positions (bytes : List Nat) (h : Hdr)
    (hok : parse_header_fields bytes = .ok h) :
    h.chromXFmt = u8At bytes 173 ∧ h.chromYFmt = u8At bytes 174 ∧
      h.spectXFmt = u8At bytes 175 ∧ h.spectYFmt = u8At bytes 176 ∧
      ((h.spectXFmt = 1 ∧ h.spectXElemSize = 4) ∨ (h.spectXFmt = 2 ∧ h.spectXElemSize = 8)) ∧
      ((h.spectYFmt = 1 ∧ h.spectYElemSize = 4) ∨ (h.spectYFmt = 2 ∧ h.spectYElemSize = 8)) ∧
      ((h.chromXFmt = 1 ∧ h.chromXElemSize = 4) ∨ (h.chromXFmt = 2 ∧ h.chromXElemSize = 8)) ∧
      ((h.chromYFmt = 1 ∧ h.chromYElemSize = 4) ∨ (h.chromYFmt = 2 ∧ h.chromYElemSize = 8)) ∧
      h.sizeContainerSpectX = u64At bytes 48 ∧ h.offContainerSpectX = u64At bytes 56 ∧
      h.sizeContainerSpectY = u64At bytes 64 ∧ h.offContainerSpectY = u64At bytes 72 ∧
      h.sizeContainerChromX = u64At bytes 80 ∧ h.offContainerChromX = u64At bytes 88 ∧
      h.sizeContainerChromY = u64At bytes 96 ∧ h.offContainerChromY = u64At bytes 104 := by
  obtain ⟨-, hsx, hsy, hcx, hcy, f1, f2, f3, f4, g1, g2, g3, g4, g5, g6, g7, g8⟩ :=
    parse_header_fields_ok hok
  exact ⟨f1, f2, f3, f4, fmt_elem_size_cases hsx, fmt_elem_size_cases hsy,
    fmt_elem_size_cases hcx, fmt_elem_size_cases hcy, g1, g2, g3, g4, g5, g6, g7, g8⟩

theorem C3_format_byte_positions_witness :
    ∃ h, parse_header_fields exHdrFmt = .ok h ∧
      h.chromXFmt = u8At exHdrFmt 173 ∧ h.spectXFmt = u8At exHdrFmt 175 ∧
      ((h.spectXFmt = 1 ∧ h.spectXElemSize = 4) ∨ (h.spectXFmt = 2 ∧ h.spectXElemSize = 8)) := by
  cases hh : parse_header_fields exHdrFmt with
  | error e =>
    have hne : (parse_header_fields exHdrFmt).isOk = true := rfl
    rw [hh] at hne
    exact Bool.noConfusion hne
  | ok h =>
    have hc := C3_format_byte_positions exHdrFmt h hh
    exact ⟨h, rfl, hc.1, hc.2.2.1, hc.2.2.2.2.1⟩

/-- With no overflow, the saturating running sum built by `block_starts` is the
plain prefix sum. -/
theorem scanl_satAdd_eq_sum (f : BlockDirEntry → Nat) (dir : List BlockDirEntry) :
    ∀ init, init + (dir.map f).sum ≤ U64MAX →
      ∀ i, i ≤ dir.length →
        (dir.scanl (fun acc e => satAdd acc (f e)) init).get? i =
          some (init + ((dir.take i).map f).sum) := by
  induction dir with
  | nil =>
    intro init hle i hi
    have hi0 : i = 0 := by simpa using hi
    subst hi0
    simp [List.scanl]
  | cons d ds ih =>
    intro init hle i hi
    rw [List.scanl_cons]
    simp only [List.singleton_append]
    cases i with
    | zero => simp
    | succ j =>
      have hsat : satAdd init (f d) = init + f d := by
        unfold satAdd
        have : init + f d ≤ U64MAX := by
          simp only [List.map_cons, List.sum_cons] at hle
          omega
        omega
      rw [List.get?_cons_succ, hsat]
      have hle2 : init + f d + (ds.map f).sum ≤ U64MAX := by
        simp only [List.map_cons, List.sum_cons] at hle
        omega
      rw [ih (init + f d) hle2 j (by simpa using hi)]
      simp only [List.take_succ_cons, List.map_cons, List.sum_cons, Option.some.injEq]
      omega

/-- The model `Container.new` builds `block_start_elems` by the directory scan (both the
empty and the parsed container satisfy this). -/
theorem container_new_block_starts {file : List Nat}
    {off size blockCount codec lvl es filt : Nat} {c : Container}
    (hok : Container.new file off size blockCount codec lvl es filt = .ok c) :
    c.blockStartElems = block_starts c.elemSize c.dir := by
  unfold Container.new at hok
  split at hok
  · simp only [Except.ok.injEq] at hok
    subst hok
    rfl
  · split at hok
    · cases hok
    · simp only [ebind_ok] at hok
      obtain ⟨cb, hcb, hok⟩ := hok
      split at hok
      · cases hok
      · simp only [Except.ok.injEq] at hok
        subst hok
        rfl

/-- Claim C1 (confirmed): the decoder computes the logical element-start offset
of block `i` from the directory alone, as the (saturating, here overflow-free)
sum of `uncomp_bytes / elem_size` over blocks `[0..i)`; and `slice_elems` fails
when the index entry's element offset lies before the computed block start, or
when the requested slice runs past the end of the block's bytes. -/
theorem C1_block_starts_and_slice_validation
    (file : List Nat) (off size blockCount codec lvl es filt : Nat) (c : Container)
    (inflZ inflS : List Nat → Option (List Nat))
    (hok : Container.new file off size blockCount codec lvl es filt = .ok c)
    (hsum : (c.dir.map fun e => e.uncompBytes / c.elemSize).sum ≤ U64MAX) :
    (∀ i, i ≤ c.dir.length →
      c.blockStartElems.get? i =
        some (((c.dir.take i).map fun e => e.uncompBytes / c.elemSize).sum)) ∧
    (∀ blockId globalOff len, blockId + 1 < c.blockStartElems.length →
      globalOff < c.blockStartElems.getD blockId 0 →
      c.slice_elems inflZ inflS blockId globalOff len =
        .error (.msg "Element offset before block start")) ∧
    (∀ blockId globalOff len bs, blockId + 1 < c.blockStartElems.length →
      c.blockStartElems.getD blockId 0 ≤ globalOff →
      (globalOff - c.blockStartElems.getD blockId 0) * c.elemSize ≤ U64MAX →
      len * c.elemSize ≤ U64MAX →
      (globalOff - c.blockStartElems.getD blockId 0) * c.elemSize + len * c.elemSize ≤ U64MAX →
      c.block_bytes inflZ inflS blockId = .ok bs →
      bs.length <
        (globalOff - c.blockStartElems.getD blockId 0) * c.elemSize + len * c.elemSize →
      c.slice_elems inflZ inflS blockId globalOff len = .error (.msg "EOF")) := by
  refine ⟨?_, ?_, ?_⟩
  · intro i hi
    rw [container_new_block_starts hok]
    unfold block_starts
    have h0 := scanl_satAdd_eq_sum (fun e => e.uncompBytes / c.elemSize) c.dir 0
      (by omega) i hi
    rw [Nat.zero_add] at h0
    exact h0
  · intro blockId globalOff len hlt hoff
    unfold Container.slice_elems
    rw [if_neg (by omega), if_pos hoff]
  · intro blockId globalOff len bs hlt hoff hov1 hov2 hov3 hbs hpast
    unfold Container.slice_elems
    rw [if_neg (by omega), if_neg (by omega), if_neg (by omega), if_neg (by omega),
      if_neg (by omega)]
    rw [hbs]
    simp only [Bind.bind, Except.bind]
    rw [if_neg (by omega)]

/-- A successful `slice_elems` returns exactly `elem_len * elem_size` bytes, and
only a container with a non-trivial block-start table can succeed. -/
theorem slice_elems_ok_length {c : Container} {inflZ inflS : List Nat → Option (List Nat)}
    {blockId globalOff elemLen : Nat} {bs : List Nat}
    (h : c.slice_elems inflZ inflS blockId globalOff elemLen = .ok bs) :
    bs.length = elemLen * c.elemSize ∧ blockId + 1 < c.blockStartElems.length := by
  simp only [Container.slice_elems] at h
  split at h
  · cases h
  · split at h
    · cases h
    · split at h
      · cases h
      · split at h
        · cases h
        · split at h
          · cases h
          · simp only [ebind_ok] at h
            obtain ⟨block, hblock, h⟩ := h
            split at h
            · simp only [Except.ok.injEq] at h
              subst h
              constructor
              · simp only [List.length_take, List.length_drop]
                omega
              · omega
            · cases h

/-- Rust `Container.new` yields either the empty container or one whose element size
is the requested one. -/
theorem container_new_elem_size {file : List Nat}
    {off size blockCount codec lvl es filt : Nat} {c : Container}
    (hok : Container.new file off size blockCount codec lvl es filt = .ok c) :
    c = Container.empty ∨ c.elemSize = es := by
  unfold Container.new at hok
  split at hok
  · simp only [Except.ok.injEq] at hok
    exact Or.inl hok.symm
  · split at hok
    · cases hok
    · simp only [ebind_ok] at hok
      obtain ⟨cb, hcb, hok⟩ := hok
      split at hok
      · cases hok
      · simp only [Except.ok.injEq] at hok
        subst hok
        exact Or.inr rfl

/-- Decoded vector shapes of `decode_array_by_fmt_from_bytes`. -/
theorem decode_array_fmt_ok {bytes : List Nat} {fmt : Nat} {pr : List Nat × List Nat}
    (h : decode_array_by_fmt_from_bytes bytes fmt = .ok pr) :
    (fmt = 1 ∧ pr.2 = [] ∧ pr.1.length = bytes.length / 4) ∨
      (fmt = 2 ∧ pr.1 = [] ∧ pr.2.length = bytes.length / 8) := by
  unfold decode_array_by_fmt_from_bytes at h
  split at h
  · simp only [ebind_ok] at h
    obtain ⟨v, hv, h⟩ := h
    simp only [Except.ok.injEq] at h
    subst h
    unfold bytes_to_f32_exact at hv
    split at hv
    · cases hv
    · simp only [Except.ok.injEq] at hv
      subst hv
      exact Or.inl ⟨by assumption, rfl, by simp⟩
  · split at h
    · simp only [ebind_ok] at h
      obtain ⟨v, hv, h⟩ := h
      simp only [Except.ok.injEq] at h
      subst h
      unfold bytes_to_f64_exact at hv
      split at hv
      · cases hv
      · simp only [Except.ok.injEq] at hv
        subst hv
        exact Or.inr ⟨by assumption, rfl, by simp⟩
    · cases h

/-- One successful spectrum-loop iteration produces the amended C2 shape. -/
theorem build_one_spectrum_ok {cvT : String → Option String}
    {inflZ inflS : List Nat → Option (List Nat)} {idx : List Nat} {cx cy : Container}
    {xfmt yfmt xes yes i : Nat} {params : List CvParam} {s : Spectrum}
    (hx : fmt_elem_size xfmt = .ok xes) (hy : fmt_elem_size yfmt = .ok yes)
    (hcx : cx = Container.empty ∨ cx.elemSize = xes)
    (hcy : cy = Container.empty ∨ cy.elemSize = yes)
    (h : build_one_spectrum cvT inflZ inflS idx cx cy xfmt yfmt i params = .ok s) :
    has_xy_arrays cvT 1000514 s.defaultArrayLength s.binaryDataArrayList := by
  unfold build_one_spectrum at h
  simp only [ebind_ok] at h
  obtain ⟨entry, hentry, h⟩ := h
  obtain ⟨xOff, yOff, xLen, yLen, xBlock, yBlock⟩ := entry
  simp only [ebind_ok] at h
  obtain ⟨mzB, hmz, inB, hin, mzV, hmzv, inV, hinv, hfin⟩ := h
  simp only [Except.ok.injEq] at hfin
  subst hfin
  obtain ⟨hmzlen, hmznb⟩ := slice_elems_ok_length hmz
  obtain ⟨hinlen, hinnb⟩ := slice_elems_ok_length hin
  have hcx2 : cx.elemSize = xes := by
    rcases hcx with hcx | hcx
    · rw [hcx] at hmznb
      simp [Container.empty] at hmznb
    · exact hcx
  have hcy2 : cy.elemSize = yes := by
    rcases hcy with hcy | hcy
    · rw [hcy] at hinnb
      simp [Container.empty] at hinnb
    · exact hcy
  have hmzv2 : mzV.1.length + mzV.2.length = xLen := by
    rcases fmt_elem_size_cases hx with ⟨hf, he⟩ | ⟨hf, he⟩ <;>
      rcases decode_array_fmt_ok hmzv with ⟨hf2, hz, hl⟩ | ⟨hf2, hz, hl⟩
    · rw [hz, hl, hmzlen, hcx2, he]
      simp only [List.length_nil]
      omega
    · omega
    · omega
    · rw [hz, hl, hmzlen, hcx2, he]
      simp only [List.length_nil]
      omega
  have hinv2 : inV.1.length + inV.2.length = yLen := by
    rcases fmt_elem_size_cases hy with ⟨hf, he⟩ | ⟨hf, he⟩ <;>
      rcases decode_array_fmt_ok hinv with ⟨hf2, hz, hl⟩ | ⟨hf2, hz, hl⟩
    · rw [hz, hl, hinlen, hcy2, he]
      simp only [List.length_nil]
      omega
    · omega
    · omega
    · rw [hz, hl, hinlen, hcy2, he]
      simp only [List.length_nil]
      omega
  refine ⟨_, _, rfl, ?_, ?_, ?_, rfl, rfl⟩ <;>
    simp [bda_len, hmzv2, hinv2]

/-- Every spectrum built by the loop has the amended C2 shape. -/
theorem build_spectra_mem {cvT : String → Option String}
    {inflZ inflS : List Nat → Option (List Nat)} {idx : List Nat} {cx cy : Container}
    {xfmt yfmt xes yes : Nat}
    (hx : fmt_elem_size xfmt = .ok xes) (hy : fmt_elem_size yfmt = .ok yes)
    (hcx : cx = Container.empty ∨ cx.elemSize = xes)
    (hcy : cy = Container.empty ∨ cy.elemSize = yes) :
    ∀ items i ss, build_spectra cvT inflZ inflS idx cx cy xfmt yfmt i items = .ok ss →
      ∀ s ∈ ss, has_xy_arrays cvT 1000514 s.defaultArrayLength s.binaryDataArrayList := by
  intro items
  induction items with
  | nil =>
    intro i ss h
    unfold build_spectra at h
    simp only [Except.ok.injEq] at h
    subst h
    simp
  | cons p rest ih =>
    intro i ss h
    unfold build_spectra at h
    simp only [ebind_ok] at h
    obtain ⟨s0, hs0, tail, htail, h⟩ := h
    simp only [Except.ok.injEq] at h
    subst h
    intro s hs
    rcases List.mem_cons.mp hs with hs | hs
    · subst hs
      exact build_one_spectrum_ok hx hy hcx hcy hs0
    · exact ih (i + 1) tail htail s hs

/-- One successful chromatogram-loop iteration produces the amended C2 shape. -/
theorem build_one_chromatogram_ok {cvT : String → Option String}
    {inflZ inflS : List Nat → Option (List Nat)} {idx : List Nat} {cx cy : Container}
    {xfmt yfmt xes yes j : Nat} {params : List CvParam} {ch : Chromatogram}
    (hx : fmt_elem_size xfmt = .ok xes) (hy : fmt_elem_size yfmt = .ok yes)
    (hcx : cx = Container.empty ∨ cx.elemSize = xes)
    (hcy : cy = Container.empty ∨ cy.elemSize = yes)
    (h : build_one_chromatogram cvT inflZ inflS idx cx cy xfmt yfmt j params = .ok ch) :
    has_xy_arrays cvT 1000595 ch.defaultArrayLength ch.binaryDataArrayList := by
  unfold build_one_chromatogram at h
  simp only [ebind_ok] at h
  obtain ⟨entry, hentry, h⟩ := h
  obtain ⟨xOff, yOff, xLen, yLen, xBlock, yBlock⟩ := entry
  simp only [ebind_ok] at h
  obtain ⟨tB, ht, inB, hin, tV, htv, inV, hinv, hfin⟩ := h
  simp only [Except.ok.injEq] at hfin
  subst hfin
  obtain ⟨htlen, htnb⟩ := slice_elems_ok_length ht
  obtain ⟨hinlen, hinnb⟩ := slice_elems_ok_length hin
  have hcx2 : cx.elemSize = xes := by
    rcases hcx with hcx | hcx
    · rw [hcx] at htnb
      simp [Container.empty] at htnb
    · exact hcx
  have hcy2 : cy.elemSize = yes := by
    rcases hcy with hcy | hcy
    · rw [hcy] at hinnb
      simp [Container.empty] at hinnb
    · exact hcy
  have htv2 : tV.1.length + tV.2.length = xLen := by
    rcases fmt_elem_size_cases hx with ⟨hf, he⟩ | ⟨hf, he⟩ <;>
      rcases decode_array_fmt_ok htv with ⟨hf2, hz, hl⟩ | ⟨hf2, hz, hl⟩
    · rw [hz, hl, htlen, hcx2, he]
      simp only [List.length_nil]
      omega
    · omega
    · omega
    · rw [hz, hl, htlen, hcx2, he]
      simp only [List.length_nil]
      omega
  have hinv2 : inV.1.length + inV.2.length = yLen := by
    rcases fmt_elem_size_cases hy with ⟨hf, he⟩ | ⟨hf, he⟩ <;>
      rcases decode_array_fmt_ok hinv with ⟨hf2, hz, hl⟩ | ⟨hf2, hz, hl⟩
    · rw [hz, hl, hinlen, hcy2, he]
      simp only [List.length_nil]
      omega
    · omega
    · omega
    · rw [hz, hl, hinlen, hcy2, he]
      simp only [List.length_nil]
      omega
  refine ⟨_, _, rfl, ?_, ?_, ?_, rfl, rfl⟩ <;>
    simp [bda_len, htv2, hinv2]

/-- Every chromatogram built by the loop has the amended C2 shape. -/
theorem build_chromatograms_mem {cvT : String → Option String}
    {inflZ inflS : List Nat → Option (List Nat)} {idx : List Nat} {cx cy : Container}
    {xfmt yfmt xes yes : Nat}
    (hx : fmt_elem_size xfmt = .ok xes) (hy : fmt_elem_size yfmt = .ok yes)
    (hcx : cx = Container.empty ∨ cx.elemSize = xes)
    (hcy : cy = Container.empty ∨ cy.elemSize = yes) :
    ∀ items j cs, build_chromatograms cvT inflZ inflS idx cx cy xfmt yfmt j items = .ok cs →
      ∀ ch ∈ cs, has_xy_arrays cvT 1000595 ch.defaultArrayLength ch.binaryDataArrayList := by
  intro items
  induction items with
  | nil =>
    intro j cs h
    unfold build_chromatograms at h
    simp only [Except.ok.injEq] at h
    subst h
    simp
  | cons p rest ih =>
    intro j cs h
    unfold build_chromatograms at h
    simp only [ebind_ok] at h
    obtain ⟨c0, hc0, tail, htail, h⟩ := h
    simp only [Except.ok.injEq] at h
    subst h
    intro ch hch
    rcases List.mem_cons.mp hch with hch | hch
    · subst hch
      exact build_one_chromatogram_ok hx hy hcx hcy hc0
    · exact ih (j + 1) tail htail ch hch

/-- Claim C2, counterexample: `exOneSpectrum` decodes successfully to a document
whose only spectrum carries an m/z array of 1 element and an intensity array of
2 elements, with `default_array_length = Some 1`: the X and Y arrays need not
have equal length (the index entry's `x_len` and `y_len` are never compared,
decode.rs lines 620-661), so there is no common length for
`default_array_length` to equal. -/
theorem C2_counterexample :
    spectrum0_lens (decode cvT0 z0 z0 exOneSpectrum) = some (1, 2, some 1) := rfl

/-- Claim C2, amended: in every document returned by the decoder, each
spectrum's BinaryDataArrayList contains exactly an m/z (X) and an intensity (Y)
array (time/intensity for a chromatogram), each array's `array_length` equals
its own decoded length, and `default_array_length` is always present and equals
the X array's decoded length; the X and Y lengths are not required to be equal. -/
theorem C2_xy_arrays_and_default_length (cvT : String → Option String)
    (inflZ inflS : List Nat → Option (List Nat)) (bytes : List Nat) (doc : MzML)
    (hok : decode cvT inflZ inflS bytes = .ok doc) :
    (∀ sl, doc.run.spectrumList = some sl → ∀ s ∈ sl.spectra,
      has_xy_arrays cvT 1000514 s.defaultArrayLength s.binaryDataArrayList) ∧
    (∀ cl, doc.run.chromatogramList = some cl → ∀ ch ∈ cl.chromatograms,
      has_xy_arrays cvT 1000595 ch.defaultArrayLength ch.binaryDataArrayList) := by
  simp only [decode, ebind_ok] at hok
  obtain ⟨h, hh, sib, hsib, cib, hcib, hok⟩ := hok
  split at hok
  · cases hok
  · simp only [ebind_ok] at hok
    obtain ⟨smr, hsmr, cmr, hcmr, hok⟩ := hok
    split at hok
    · cases hok
    · simp only [ebind_ok] at hok
      obtain ⟨gmr, hgmr, sm, hsm, cm, hcm, gm, hgm, csx, hcsx, csy, hcsy, ccx, hccx,
        ccy, hccy, smi, hsmi, cmi, hcmi, gl, hgl, spectra, hspectra, chroms, hchroms,
        hfin⟩ := hok
      simp only [Except.ok.injEq] at hfin
      subst hfin
      obtain ⟨-, hfx, hfy, hfcx, hfcy, -⟩ := parse_header_fields_ok hh
      constructor
      · intro sl hsl s hs
        simp only [Option.some.injEq] at hsl
        subst hsl
        exact build_spectra_mem hfx hfy (container_new_elem_size hcsx)
          (container_new_elem_size hcsy) _ 0 _ hspectra s hs
      · intro cl hcl ch hch
        simp only [Option.some.injEq] at hcl
        subst hcl
        exact build_chromatograms_mem hfcx hfcy (container_new_elem_size hccx)
          (container_new_elem_size hccy) _ 0 _ hchroms ch hch

theorem C2_xy_arrays_and_default_length_witness :
    ∃ doc, decode cvT0 z0 z0 exOneSpectrum = .ok doc ∧
      (∀ sl, doc.run.spectrumList = some sl → ∀ s ∈ sl.spectra,
        has_xy_arrays cvT0 1000514 s.defaultArrayLength s.binaryDataArrayList) := by
  cases hd : decode cvT0 z0 z0 exOneSpectrum with
  | error e =>
    have hne : (decode cvT0 z0 z0 exOneSpectrum).isOk = true := rfl
    rw [hd] at hne
    exact Bool.noConfusion hne
  | ok doc =>
    exact ⟨doc, rfl,
      (C2_xy_arrays_and_default_length cvT0 z0 z0 exOneSpectrum doc hd).1⟩

example : Container.new exTwoBlocks 0 88 2 0 0 8 0 = .ok cTwo := rfl

theorem C1_block_starts_and_slice_validation_witness :
    cTwo.blockStartElems.get? 2 = some 3 ∧
      cTwo.slice_elems z0 z0 1 0 0 = .error (.msg "Element offset before block start") ∧
      cTwo.slice_elems z0 z0 1 1 3 = .error (.msg "EOF") := by
  have h := C1_block_starts_and_slice_validation exTwoBlocks 0 88 2 0 0 8 0 cTwo z0 z0
    rfl (by decide)
  refine ⟨?_, h.2.1 1 0 0 (by decide) (by decide), ?_⟩
  · have := h.1 2 (by decide)
    simpa using this
  · exact h.2.2 1 1 3 (List.replicate 16 0) (by decide) (by decide) (by decide) (by decide)
      (by decide) rfl (by decide)

/-- Claim C7 (confirmed): for element size greater than 1 and a buffer of `n`
elements, the unshuffle writes output byte `e * elem_size + p` from input byte
`p * n + e`, and unshuffling the spec's shuffle restores any buffer exactly. -/
theorem C7_unshuffle_inverts_shuffle (es n : Nat) (src B : List Nat)
    (hes : 1 < es) (hsrc : src.length = n * es) (hB : B.length = n * es) :
    ∃ out, unshuffle_into src es = .ok out ∧ out.length = src.length ∧
      (∀ e p, e < n → p < es → out.get? (e * es + p) = src.get? (p * n + e)) ∧
      unshuffle_into (shuffle_spec B es) es = .ok B := by
  have hes0 : 0 < es := by omega
  have hmod : src.length % es = 0 := by
    rw [hsrc]
    exact Nat.mul_mod_left n es
  have hdiv : src.length / es = n := by
    rw [hsrc]
    exact Nat.mul_div_cancel _ hes0
  refine ⟨(List.range src.length).map fun k =>
      src.getD ((k % es) * (src.length / es) + k / es) 0, ?_, ?_, ?_, ?_⟩
  · unfold unshuffle_into
    rw [if_neg (by omega), if_neg (by simpa using hmod)]
  · simp
  · intro e p hme hp
    have hk : e * es + p < n * es := by
      have h1 : e * es + p < (e + 1) * es := by
        rw [Nat.succ_mul]
        omega
      exact lt_of_lt_of_le h1 (Nat.mul_le_mul_right es (by omega))
    have hj : p * n + e < n * es := by
      have h1 : p * n + e < (p + 1) * n := by
        rw [Nat.succ_mul]
        omega
      have h2 : (p + 1) * n ≤ es * n := Nat.mul_le_mul_right n (by omega)
      rw [Nat.mul_comm es n] at h2
      exact lt_of_lt_of_le h1 h2
    have hkm : (e * es + p) % es = p := by
      rw [Nat.mul_comm e es, Nat.mul_add_mod]
      exact Nat.mod_eq_of_lt hp
    have hkd : (e * es + p) / es = e := by
      rw [Nat.mul_comm e es, Nat.mul_add_div hes0]
      simp [Nat.div_eq_of_lt hp]
    rw [List.get?_eq_getElem?, List.getElem?_map,
      List.getElem?_range (by rw [hsrc]; exact hk)]
    simp only [Option.map_some']
    rw [hdiv, hkm, hkd]
    rw [List.get?_eq_getElem?,
      List.getElem?_eq_getElem (by rw [hsrc]; exact hj)]
    simp [List.getD_eq_getElem?_getD, List.getElem?_eq_getElem (by rw [hsrc]; exact hj)]
  · have hsl : (shuffle_spec B es).length = B.length := by
      simp [shuffle_spec]
    unfold unshuffle_into
    rw [if_neg (by omega), if_neg (by simp [hsl, hB, Nat.mul_mod_left])]
    simp only [Except.ok.injEq]
    apply List.ext_getElem?
    intro i
    by_cases hi : i < B.length
    · have hilen : i < n * es := by rw [← hB]; exact hi
      rcases Nat.eq_zero_or_pos n with hn0 | hn0
      · rw [hn0] at hilen
        simp at hilen
      have him : i % es < es := Nat.mod_lt _ hes0
      have hid : i / es < n := by
        exact Nat.div_lt_of_lt_mul (by rw [Nat.mul_comm] at hilen; exact hilen)
      have hdivB : B.length / es = n := by
        rw [hB]
        exact Nat.mul_div_cancel _ hes0
      have hdivS : (shuffle_spec B es).length / es = n := by
        rw [hsl]
        exact hdivB
      have hj : (i % es) * n + i / es < n * es := by
        have h1 : (i % es) * n + i / es < (i % es + 1) * n := by
          rw [Nat.succ_mul]
          omega
        have h2 : (i % es + 1) * n ≤ es * n := Nat.mul_le_mul_right n (by omega)
        rw [Nat.mul_comm es n] at h2
        exact lt_of_lt_of_le h1 h2
      have hjm : ((i % es) * n + i / es) % n = i / es := by
        rw [Nat.mul_comm (i % es) n, Nat.mul_add_mod]
        exact Nat.mod_eq_of_lt hid
      have hjd : ((i % es) * n + i / es) / n = i % es := by
        rw [Nat.mul_comm (i % es) n, Nat.mul_add_div hn0]
        simp [Nat.div_eq_of_lt hid]
      rw [List.getElem?_map, List.getElem?_range (by rw [hsl, hB]; exact hilen)]
      simp only [Option.map_some']
      rw [hdivS]
      have hshufj : (shuffle_spec B es).getD ((i % es) * n + i / es) 0 =
          B.getD ((i / es) * es + i % es) 0 := by
        unfold shuffle_spec
        rw [List.getD_eq_getElem?_getD, List.getElem?_map,
          List.getElem?_range (by rw [hB]; exact hj)]
        simp only [Option.map_some', Option.getD_some]
        rw [hdivB, hjm, hjd]
      rw [hshufj]
      have hieq : (i / es) * es + i % es = i := by
        rw [Nat.mul_comm (i / es) es]
        exact Nat.div_add_mod i es
      rw [hieq]
      rw [List.getElem?_eq_getElem hi]
      simp [List.getD_eq_getElem?_getD, List.getElem?_eq_getElem hi]
    · have hlen2 : (shuffle_spec B es).length ≤ i := by
        rw [hsl]
        omega
      rw [List.getElem?_eq_none (by simpa using hlen2), List.getElem?_eq_none (by omega)]

/-- The retry loop reaches the unpadded stream: starting from `s` followed by
`K` zero bytes, with the cursor `k` zeros from the end of `s`, it returns the
payload of `s` as long as every intermediate attempt either fails or agrees. -/
theorem trim_retry_hits (infl : List Nat → Option (List Nat)) (s v : List Nat) (K : Nat)
    (hs : infl s = some v)
    (hpad : ∀ j, 0 < j → j ≤ K → ∀ w, infl (s ++ List.replicate j 0) = some w → w = v) :
    ∀ k fuel, 0 < k → k ≤ K → k ≤ fuel →
      trim_retry infl (s ++ List.replicate K 0) (s.length + k) fuel = some v := by
  intro k
  induction k with
  | zero => omega
  | succ k' ih =>
    intro fuel hk0 hkK hkf
    cases fuel with
    | zero => omega
    | succ f =>
      unfold trim_retry
      rw [if_neg (by omega)]
      have hz : (s ++ List.replicate K 0).getD (s.length + (k' + 1) - 1) 0 = 0 := by
        rw [List.getD_eq_getElem?_getD, List.getElem?_append_right (by omega),
          List.getElem?_replicate, if_pos (by omega)]
        rfl
      rw [if_neg (by rw [hz]; simp)]
      have htake : (s ++ List.replicate K 0).take (s.length + (k' + 1) - 1) =
          s ++ List.replicate k' 0 := by
        have h1 : s.length + (k' + 1) - 1 = s.length + k' := by omega
        rw [h1, List.take_append, List.take_replicate]
        congr 1
        congr 1
        omega
      rw [htake]
      cases hw : infl (s ++ List.replicate k' 0) with
      | some w =>
        rcases Nat.eq_zero_or_pos k' with hk'0 | hk'0
        · subst hk'0
          simp only [List.replicate, List.append_nil] at hw
          rw [hw] at hs
          simp only [Option.some.injEq] at hs
          rw [hs]
        · rw [hpad k' hk'0 (by omega) w hw]
      | none =>
        have h1 : s.length + (k' + 1) - 1 = s.length + k' := by omega
        rw [h1]
        rcases Nat.eq_zero_or_pos k' with hk'0 | hk'0
        · subst hk'0
          simp only [List.replicate, List.append_nil] at hw
          rw [hw] at hs
          cases hs
        · exact ih f hk'0 (by omega) (by omega)

/-- Claim C8 (confirmed): for a metadata region consisting of a valid compressed
stream `s` (one the decompressor accepts with payload `v`) followed by at most
seven trailing zero bytes — where the decompressor, being driven by the
self-terminating stream, never accepts a padded copy with a different payload —
all three padding-tolerant wrappers succeed and return the payload of the
unpadded stream. -/
theorem C8_padded_stream_decompresses (infl : List Nat → Option (List Nat))
    (s v : List Nat) (k : Nat) (hk : k ≤ 7)
    (hs : infl s = some v)
    (hpad : ∀ j, 0 < j → j ≤ k → ∀ w, infl (s ++ List.replicate j 0) = some w → w = v) :
    decompress_zlib_allow_pad0 infl (s ++ List.replicate k 0) = .ok v ∧
      decompress_zstd_allow_pad0 infl (s ++ List.replicate k 0) = .ok v ∧
      decompress_zstd_allow_aligned_padding infl (s ++ List.replicate k 0) = some v := by
  have hcore : ∀ r, (match infl (s ++ List.replicate k 0) with
      | some w => some w
      | none => r) = some v ∨
      (infl (s ++ List.replicate k 0) = none) := by
    intro r
    cases hw : infl (s ++ List.replicate k 0) with
    | some w =>
      left
      rcases Nat.eq_zero_or_pos k with hk0 | hk0
      · subst hk0
        simp only [List.replicate, List.append_nil] at hw
        rw [hw] at hs
        simp only [Option.some.injEq] at hs
        rw [hs]
      · rw [hpad k hk0 le_rfl w hw]
    | none => right; rfl
  have hretry : infl (s ++ List.replicate k 0) = none →
      trim_retry infl (s ++ List.replicate k 0) (s ++ List.replicate k 0).length 7 = some v := by
    intro hnone
    rcases Nat.eq_zero_or_pos k with hk0 | hk0
    · subst hk0
      simp only [List.replicate, List.append_nil] at hnone
      rw [hnone] at hs
      cases hs
    · have hlen : (s ++ List.replicate k 0).length = s.length + k := by simp
      rw [hlen]
      exact trim_retry_hits infl s v k hs hpad k 7 hk0 le_rfl hk
  refine ⟨?_, ?_, ?_⟩
  · unfold decompress_zlib_allow_pad0
    cases hw : infl (s ++ List.replicate k 0) with
    | some w =>
      rcases Nat.eq_zero_or_pos k with hk0 | hk0
      · subst hk0
        simp only [List.replicate, List.append_nil] at hw
        rw [hw] at hs
        simp only [Option.some.injEq] at hs
        rw [hs]
      · rw [hpad k hk0 le_rfl w hw]
    | none =>
      rw [hretry hw]
  · unfold decompress_zstd_allow_pad0
    cases hw : infl (s ++ List.replicate k 0) with
    | some w =>
      rcases Nat.eq_zero_or_pos k with hk0 | hk0
      · subst hk0
        simp only [List.replicate, List.append_nil] at hw
        rw [hw] at hs
        simp only [Option.some.injEq] at hs
        rw [hs]
      · rw [hpad k hk0 le_rfl w hw]
    | none =>
      rw [hretry hw]
  · unfold decompress_zstd_allow_aligned_padding
    cases hw : infl (s ++ List.replicate k 0) with
    | some w =>
      rcases Nat.eq_zero_or_pos k with hk0 | hk0
      · subst hk0
        simp only [List.replicate, List.append_nil] at hw
        rw [hw] at hs
        simp only [Option.some.injEq] at hs
        rw [hs]
      · rw [hpad k hk0 le_rfl w hw]
    | none =>
      rw [hretry hw]

theorem C8_padded_stream_decompresses_witness :
    decompress_zlib_allow_pad0 zW ([7, 7] ++ List.replicate 7 0) = .ok [9, 9, 9] ∧
      decompress_zstd_allow_pad0 zW ([7, 7] ++ List.replicate 7 0) = .ok [9, 9, 9] ∧
      decompress_zstd_allow_aligned_padding zW ([7, 7] ++ List.replicate 7 0) = some [9, 9, 9] :=
  C8_padded_stream_decompresses zW [7, 7] [9, 9, 9] 7 (by decide) (by decide)
    (fun j hj _ w hw => by
      exfalso
      unfold zW at hw
      rw [if_neg (by
        intro heq
        have hlen := congrArg List.length heq
        simp at hlen
        omega)] at hw
      cases hw)

theorem C7_unshuffle_inverts_shuffle_witness :
    ∃ out, unshuffle_into [10, 20, 30, 40] 2 = .ok out ∧
      out.length = ([10, 20, 30, 40] : List Nat).length ∧
      (∀ e p, e < 2 → p < 2 →
        out.get? (e * 2 + p) = ([10, 20, 30, 40] : List Nat).get? (p * 2 + e)) ∧
      unshuffle_into (shuffle_spec [1, 2, 3, 4] 2) 2 = .ok [1, 2, 3, 4] :=
  C7_unshuffle_inverts_shuffle 2 2 [10, 20, 30, 40] [1, 2, 3, 4]
    (by decide) (by decide) (by decide)

end B
